import Mathlib

/-! Verification of the nanobot agent core: a shallow embedding of
`nanobot/agent/tasks.py` and `nanobot/agent/loop.py`.  External
collaborators (the LLM backend, individual tools, the context builder
and session persistence) are abstracted as parameters, matching the
black-box interfaces they implement.  Timestamps are modelled as
natural numbers supplied through the environment (the code calls
`datetime.now()`); Python `hash` (process-randomized) is likewise a
parameter. -/

namespace Nanobot

/-! Python-style string helpers. -/

/-- Characters treated as whitespace by Python `str.strip` / `str.split`
(the ASCII subset, which covers everything the agent code handles). -/
def isPySpace (c : Char) : Bool :=
  c == ' ' || c == '\t' || c == '\n' || c == '\r' || c == Char.ofNat 11 || c == Char.ofNat 12

/-- Python `str.strip()` on a character list. -/
def stripChars (l : List Char) : List Char :=
  ((l.dropWhile isPySpace).reverse.dropWhile isPySpace).reverse

/-- Python `str.strip()`. -/
def pyStrip (s : String) : String :=
  String.mk (stripChars s.toList)

/-- ASCII lower-casing of one character (Python `str.lower`; the agent
code only lower-cases ASCII keywords, task ids and CJK text, which is
unaffected). -/
def pyLowerChar (c : Char) : Char :=
  if 'A' ≤ c ∧ c ≤ 'Z' then Char.ofNat (c.toNat + 32) else c

/-- ASCII upper-casing of one character (Python `str.upper`). -/
def pyUpperChar (c : Char) : Char :=
  if 'a' ≤ c ∧ c ≤ 'z' then Char.ofNat (c.toNat - 32) else c

/-- Python `str.lower()`. -/
def pyLower (s : String) : String :=
  String.mk (s.toList.map pyLowerChar)

/-- Python `str.upper()`. -/
def pyUpper (s : String) : String :=
  String.mk (s.toList.map pyUpperChar)

/-- Whether the list `p` occurs at the start of `l`. -/
def isStartOf : List Char → List Char → Bool
  | [], _ => true
  | _ :: _, [] => false
  | a :: as, b :: bs => a == b && isStartOf as bs

/-- Python `s.startswith(p)`. -/
def pyStartsWith (s p : String) : Bool :=
  isStartOf p.toList s.toList

/-- Python substring containment `needle in haystack` (on lists). -/
def occursIn (needle : List Char) : List Char → Bool
  | [] => isStartOf needle []
  | c :: cs => isStartOf needle (c :: cs) || occursIn needle cs

/-- Python `needle in haystack` for strings. -/
def pySubstr (needle haystack : String) : Bool :=
  occursIn needle.toList haystack.toList

/-- Auxiliary for `splitWs`: accumulates the current word (reversed). -/
def splitWsAux : List Char → List Char → List String
  | [], acc => if acc.isEmpty then [] else [String.mk acc.reverse]
  | c :: cs, acc =>
    if isPySpace c then
      if acc.isEmpty then splitWsAux cs [] else String.mk acc.reverse :: splitWsAux cs []
    else splitWsAux cs (c :: acc)

/-- Python `str.split()` with no arguments: split on whitespace runs,
discarding empty pieces. -/
def splitWs (s : String) : List String :=
  splitWsAux s.toList []

/-- Split a list at the first occurrence of `c` (Python `s.split(c, 1)`
when `c` occurs); `none` when `c` does not occur. -/
def splitOnceChar (c : Char) : List Char → Option (List Char × List Char)
  | [] => none
  | d :: ds =>
    if d = c then some ([], ds)
    else match splitOnceChar c ds with
      | some (a, b) => some (d :: a, b)
      | none => none

/-- Value of a decimal digit. -/
def digitVal? (c : Char) : Option Nat :=
  if '0' ≤ c ∧ c ≤ '9' then some (c.toNat - '0'.toNat) else none

/-- Auxiliary accumulator for `digitsToNat?`. -/
def digitsToNatAux : List Char → Nat → Option Nat
  | [], acc => some acc
  | c :: cs, acc =>
    match digitVal? c with
    | some d => digitsToNatAux cs (acc * 10 + d)
    | none => none

/-- Python `int(s)` restricted to non-empty all-digit strings (Python
also accepts signs and surrounding whitespace; every task number in
this repository is a plain non-negative decimal). Returns `none` where
Python `int` raises `ValueError`. -/
def digitsToNat? : List Char → Option Nat
  | [] => none
  | c :: cs => digitsToNatAux (c :: cs) 0

/-- Python `s.split("\n")[0]`. -/
def firstLineStr (s : String) : String :=
  String.mk (s.toList.takeWhile (fun c => c ≠ '\n'))

/-- Python slice `s[:n]` (by code points). -/
def takeStr (s : String) (n : Nat) : String :=
  String.mk (s.toList.take n)

/-- Python slice `s[n:]` (by code points). -/
def dropStr (s : String) (n : Nat) : String :=
  String.mk (s.toList.drop n)

/-- Index of the last occurrence of `c` in `l` (Python `str.rfind`,
with `none` for the "-1" case). -/
def lastIdxOf (c : Char) (l : List Char) : Option Nat :=
  ((l.enum.filter (fun p => p.2 = c)).map Prod.fst).getLast?

/-- Zero-pad the decimal representation of `n` to width `w` (Python
format spec `:04d` with `w = 4`). -/
def padZeros (w n : Nat) : String :=
  let s := Nat.repr n
  String.mk (List.replicate (w - s.length) '0') ++ s

/-- Python `a or b` for strings (`b` when `a` is the empty string). -/
def pyOrS (a b : String) : String :=
  if a = "" then b else a

/-- Python `a or b` where `a` is `str | None`. -/
def pyOrStr (a : Option String) (b : String) : String :=
  match a with
  | some s => if s = "" then b else s
  | none => b

/-- Python truthiness of a `str | None` value. -/
def optTruthy : Option String → Bool
  | some s => s ≠ ""
  | none => false

/-- Deduplicate keeping the first occurrence of each element. -/
def dedupAux [DecidableEq α] (seen : List α) : List α → List α
  | [] => []
  | a :: as => if a ∈ seen then dedupAux seen as else a :: dedupAux (a :: seen) as

/-- Association-list lookup (Python `dict.get`): first matching key. -/
def lookupA {β : Type} : List (String × β) → String → Option β
  | [], _ => none
  | (k, v) :: l, key => if k = key then some v else lookupA l key

/-- Association-list assignment (Python `d[k] = v`): overwrite in place
if the key exists, else append (insertion order preserved). -/
def setAssoc {β : Type} : List (String × β) → String → β → List (String × β)
  | [], k, v => [(k, v)]
  | (k', v') :: l, k, v =>
    if k' = k then (k, v) :: l else (k', v') :: setAssoc l k v

/-- Association-list deletion (Python `del d[k]`). -/
def delAssoc {β : Type} : List (String × β) → String → List (String × β)
  | [], _ => []
  | (k', v) :: l, k => if k' = k then delAssoc l k else (k', v) :: delAssoc l k

/-! A small JSON value model for the `dict[str, Any]` payloads the code
threads around (task context, proposed solutions, pending tasks).
Objects are insertion-ordered association lists, like Python dicts.
ISO-format timestamp strings are modelled by their numeric tick value
(`Json.num`), matching the bijection `datetime.isoformat` /
`datetime.fromisoformat` used by the code. -/

inductive Json where
  | null : Json
  | bool (b : Bool) : Json
  | num (n : Int) : Json
  | str (s : String) : Json
  | arr (xs : List Json) : Json
  | obj (fields : List (String × Json)) : Json

/-- Python `dict.get(k)` on a JSON object. -/
def Json.objGet (j : Json) (k : String) : Option Json :=
  match j with
  | .obj fs => lookupA fs k
  | _ => none

/-- Python `d[k] = v` on a JSON object (other values are replaced by a
fresh singleton object; the code never hits that case). -/
def Json.objSet (j : Json) (k : String) (v : Json) : Json :=
  match j with
  | .obj fs => .obj (setAssoc fs k v)
  | _ => .obj [(k, v)]

/-- Python `data.get(k, default)` returning a string field. -/
def Json.strGetD (j : Json) (k d : String) : String :=
  match j.objGet k with
  | some (.str s) => s
  | _ => d

/-- Python `data.get(k, default)` returning a numeric field. -/
def Json.numGetD (j : Json) (k : String) (d : Nat) : Nat :=
  match j.objGet k with
  | some (.num n) => n.toNat
  | _ => d

/-- Python `data.get(k, [])` returning a list of strings. -/
def Json.strListGetD (j : Json) (k : String) : List String :=
  match j.objGet k with
  | some (.arr xs) => xs.filterMap (fun x => match x with | .str s => some s | _ => none)
  | _ => []

/-- Python truthiness of a JSON value (empty containers, `""`, `0`,
`False` and `None` are falsy). -/
def Json.truthy : Json → Bool
  | .null => false
  | .bool b => b
  | .num n => n ≠ 0
  | .str s => s ≠ ""
  | .arr xs => !xs.isEmpty
  | .obj fs => !fs.isEmpty

/-- Python truthiness of a `dict | None` slot. -/
def jsonOptTruthy : Option Json → Bool
  | some j => j.truthy
  | none => false

/-- Escape a string for JSON output. -/
def jsonEscape (s : String) : String :=
  String.mk (s.toList.flatMap (fun c =>
    if c = '"' then ['\\', '"']
    else if c = '\\' then ['\\', '\\']
    else if c = '\n' then ['\\', 'n']
    else if c = '\t' then ['\\', 't']
    else if c = '\r' then ['\\', 'r']
    else [c]))

mutual

/-- Python `json.dumps(x, ensure_ascii=False, indent=2)` at nesting
depth `ind` (in spaces). -/
def jsonDumpsLevel (ind : Nat) : Json → String
  | .null => "null"
  | .bool b => if b then "true" else "false"
  | .num n => toString n
  | .str s => "\"" ++ jsonEscape s ++ "\""
  | .arr xs =>
    match xs with
    | [] => "[]"
    | _ :: _ =>
      let inner := jsonDumpsArr (ind + 2) xs
      let pad := String.mk (List.replicate (ind + 2) ' ')
      "[\n" ++ pad ++ String.intercalate (",\n" ++ pad) inner ++ "\n" ++
        String.mk (List.replicate ind ' ') ++ "]"
  | .obj fs =>
    match fs with
    | [] => "\x7b\x7d"
    | _ :: _ =>
      let inner := jsonDumpsObj (ind + 2) fs
      let pad := String.mk (List.replicate (ind + 2) ' ')
      "\x7b\n" ++ pad ++ String.intercalate (",\n" ++ pad) inner ++ "\n" ++
        String.mk (List.replicate ind ' ') ++ "\x7d"

/-- Serialized elements of a JSON array. -/
def jsonDumpsArr (ind : Nat) : List Json → List String
  | [] => []
  | x :: xs => jsonDumpsLevel ind x :: jsonDumpsArr ind xs

/-- Serialized entries of a JSON object. -/
def jsonDumpsObj (ind : Nat) : List (String × Json) → List String
  | [] => []
  | (k, v) :: fs => ("\"" ++ jsonEscape k ++ "\": " ++ jsonDumpsLevel ind v) :: jsonDumpsObj ind fs

end

/-- Python `json.dumps(x, ensure_ascii=False, indent=2)`. -/
def jsonDumps (j : Json) : String :=
  jsonDumpsLevel 0 j

mutual

/-- Python `repr`/`str` of a JSON-modelled Python value (used by the
legacy task prompt's f-string interpolation of lists; strings are
rendered with single quotes and no escaping, which the repository's
plain requirement strings never need). -/
def pyReprJson : Json → String
  | .null => "None"
  | .bool b => if b then "True" else "False"
  | .num n => toString n
  | .str s => "\x27" ++ s ++ "\x27"
  | .arr xs => "[" ++ String.intercalate ", " (pyReprJsonArr xs) ++ "]"
  | .obj fs => "\x7b" ++ String.intercalate ", " (pyReprJsonObj fs) ++ "\x7d"

/-- Elements of a Python list repr. -/
def pyReprJsonArr : List Json → List String
  | [] => []
  | x :: xs => pyReprJson x :: pyReprJsonArr xs

/-- Entries of a Python dict repr. -/
def pyReprJsonObj : List (String × Json) → List String
  | [] => []
  | (k, v) :: fs => ("\x27" ++ k ++ "\x27: " ++ pyReprJson v) :: pyReprJsonObj fs

end

/-- Python `str(x)` of a JSON-modelled value as interpolated by
f-strings (a string interpolates as itself). -/
def jsonToPyStr : Json → String
  | .str s => s
  | j => pyReprJson j

/-! Embedding of `nanobot/agent/tasks.py`. -/

/-- Ordered category table `TASK_CATEGORIES` from `tasks.py`. -/
def TASK_CATEGORIES : List (String × List String) :=
  [("app", ["web", "网站", "ui", "界面", "dashboard", "frontend", "后端", "服务", "server", "api"]),
   ("analyzer", ["分析", "analyze", "检查", "check", "审计", "audit", "report", "报告"]),
   ("tool", ["工具", "tool", "script", "脚本", "utility", "helper"]),
   ("fix", ["修复", "fix", "bug", "错误", "error", "问题"]),
   ("feature", ["功能", "feature", "添加", "add", "新功能", "新的"]),
   ("data", ["数据", "data", "数据库", "database", "存储", "storage", "爬虫", "crawler", "历史", "history", "记录", "record"]),
   ("web3", ["钱包", "wallet", "链", "chain", "多链", "multichain", "余额", "balance", "eth", "btc", "nft", "token", "合约", "contract"])]

/-- `DEFAULT_CATEGORY` from `tasks.py`. -/
def DEFAULT_CATEGORY : String := "task"

/-- The `Task` dataclass from `tasks.py`. `context` and
`proposed_solution` are the `dict[str, Any]` payloads; timestamps are
ticks (see the module comment). -/
structure Task where
  id : String
  category : String
  number : Nat
  title : String
  description : String
  status : String
  requirements : List String
  context : Json
  proposed_solution : Json
  created_at : Nat
  updated_at : Nat
  assigned_to : Option String

/-- A `Task()` with the dataclass field defaults, created at `now`. -/
def Task.mkDefault (now : Nat) : Task :=
  { id := "", category := DEFAULT_CATEGORY, number := 0, title := "", description := "",
    status := "drafting", requirements := [], context := .obj [], proposed_solution := .obj [],
    created_at := now, updated_at := now, assigned_to := none }

/-- `Task.add_refinement`: append a refinement record to
`context["refinements"]` and bump `updated_at`. -/
def Task.add_refinement (t : Task) (user_message : String) (bot_response : Option String)
    (action : Option String) (now : Nat) : Task :=
  let entry : Json := .obj
    [("timestamp", .num (Int.ofNat now)),
     ("user", .str user_message),
     ("bot", match bot_response with | some b => .str b | none => .null),
     ("action", match action with | some a => .str a | none => .null)]
  let refs : List Json :=
    match t.context.objGet "refinements" with
    | some (.arr xs) => xs
    | _ => []
  { t with context := t.context.objSet "refinements" (.arr (refs ++ [entry])), updated_at := now }

/-- `Task.update_requirements`: `list(set(old + new))`, deduplicated.
Python's set iteration order is unspecified; the first-occurrence order
is used here and every property below treats `requirements` as a set. -/
def Task.update_requirements (t : Task) (new_requirements : List String) (now : Nat) : Task :=
  { t with requirements := dedupAux [] (t.requirements ++ new_requirements), updated_at := now }

/-- `Task.to_dict`. -/
def Task.to_dict (t : Task) : Json :=
  .obj [("id", .str t.id),
        ("category", .str t.category),
        ("number", .num (Int.ofNat t.number)),
        ("title", .str t.title),
        ("description", .str t.description),
        ("status", .str t.status),
        ("requirements", .arr (t.requirements.map .str)),
        ("context", t.context),
        ("proposed_solution", t.proposed_solution),
        ("created_at", .num (Int.ofNat t.created_at)),
        ("updated_at", .num (Int.ofNat t.updated_at)),
        ("assigned_to", match t.assigned_to with | some a => .str a | none => .null)]

/-- Names of the known categories (keys of `TASK_CATEGORIES`). -/
def categoryNames : List String :=
  TASK_CATEGORIES.map Prod.fst

/-- `Task.from_dict`: rebuild a task from its stored record, re-deriving
`category` and `number` from the id when the id has the
`"{category}-{number}"` shape with a known category. `now` stands for
the `datetime.now()` dataclass default used when a timestamp field is
absent. -/
def Task.from_dict (data : Json) (now : Nat) : Task :=
  let task_id := data.strGetD "id" ""
  let catNum : String × Nat :=
    if task_id ≠ "" ∧ occursIn ['-'] task_id.toList then
      match splitOnceChar '-' task_id.toList with
      | some (p0, p1) =>
        let p0s := String.mk p0
        if p0s ∈ categoryNames ∨ p0s = DEFAULT_CATEGORY then
          (p0s, (digitsToNat? p1).getD 0)
        else (DEFAULT_CATEGORY, 0)
      | none => (DEFAULT_CATEGORY, 0)
    else if (data.strGetD "category" "") ≠ "" then
      (data.strGetD "category" "", data.numGetD "number" 0)
    else (DEFAULT_CATEGORY, 0)
  let base : Task :=
    { id := task_id, category := catNum.1, number := catNum.2,
      title := data.strGetD "title" "",
      description := data.strGetD "description" "",
      status := data.strGetD "status" "drafting",
      requirements := data.strListGetD "requirements",
      context := (data.objGet "context").getD (.obj []),
      proposed_solution := (data.objGet "proposed_solution").getD (.obj []),
      created_at := now, updated_at := now,
      assigned_to := match data.objGet "assigned_to" with | some (.str a) => some a | _ => none }
  let base := match data.objGet "created_at" with
    | some (.num n) => { base with created_at := n.toNat }
    | _ => base
  match data.objGet "updated_at" with
  | some (.num n) => { base with updated_at := n.toNat }
  | _ => base

/-- `Task._status_emoji`. -/
def Task.statusEmoji (t : Task) : String :=
  if t.status = "drafting" then "📝"
  else if t.status = "refining" then "🔧"
  else if t.status = "approved" then "✅"
  else if t.status = "executing" then "🔄"
  else if t.status = "completed" then "✨"
  else if t.status = "failed" then "❌"
  else "📋"

/-- `Task.format_for_user`: the user-facing rendering of a task.  Note
the Python precedence quirk: `self.title or X if self.description else
"未命名任务"` groups as `(title or X) if description else "未命名任务"`. -/
def Task.format_for_user (t : Task) : String :=
  let title_display :=
    if t.description ≠ "" then pyOrS t.title (takeStr (firstLineStr t.description) 50)
    else "未命名任务"
  let lines0 : List String :=
    [t.statusEmoji ++ " **" ++ t.id ++ "** - *" ++ title_display ++ "*", ""]
  let lines1 : List String :=
    if t.description ≠ "" then
      let desc := if t.description.toList.length > 200 then takeStr t.description 200 ++ "..." else t.description
      lines0 ++ [desc, ""]
    else lines0
  let lines2 : List String :=
    if !t.requirements.isEmpty then
      lines1 ++ ["**需求**:"] ++ t.requirements.map (fun r => "  • " ++ r) ++ [""]
    else lines1
  let lines3 : List String :=
    if t.proposed_solution.truthy then
      let l3a :=
        match t.proposed_solution.objGet "analysis" with
        | some a => if a.truthy then lines2 ++ ["**方案**: " ++ jsonToPyStr a, ""] else lines2
        | none => lines2
      match t.proposed_solution.objGet "steps" with
      | some (.arr steps) =>
        if !steps.isEmpty then
          l3a ++ ["**步骤**:"] ++
            (steps.enum.map (fun p => "  " ++ Nat.repr (p.1 + 1) ++ ". " ++ jsonToPyStr p.2)) ++ [""]
        else l3a
      | some j => if j.truthy then l3a ++ ["**步骤**:", ""] else l3a
      | none => l3a
    else lines2
  let refinements : List Json :=
    match t.context.objGet "refinements" with
    | some (.arr xs) => xs
    | _ => []
  let lines4 :=
    if !refinements.isEmpty then
      lines3 ++ ["**迭代** (" ++ Nat.repr refinements.length ++ "次):", ""]
    else lines3
  String.intercalate "\n" lines4

/-- The `TaskManager` from `tasks.py`: an insertion-ordered task map
plus per-category counters. -/
structure TaskManager where
  session_key : String
  tasks : List (String × Task)
  counters : List (String × Nat)

/-- `TaskManager._detect_category`: first category whose keyword occurs
as a substring of the lower-cased description, else the default. -/
def detect_category (description : String) : String :=
  let descLower := pyLower description
  let rec go : List (String × List String) → String
    | [] => DEFAULT_CATEGORY
    | (cat, kws) :: rest =>
      if kws.any (fun kw => pySubstr kw descLower) then cat else go rest
  go TASK_CATEGORIES

/-- `TaskManager.get_task`. -/
def TaskManager.get_task (tm : TaskManager) (task_id : String) : Option Task :=
  lookupA tm.tasks task_id

/-- Mutation of the task stored under `task_id` (Python mutates the
shared `Task` object through the `_tasks` dict; no-op when absent). -/
def TaskManager.modify (tm : TaskManager) (task_id : String) (f : Task → Task) : TaskManager :=
  { tm with tasks := tm.tasks.map (fun p => if p.1 = task_id then (p.1, f p.2) else p) }

/-- `TaskManager._get_next_number`: lazily seed the category counter
with the maximum existing number, then increment and return it. -/
def TaskManager.getNextNumber (tm : TaskManager) (category : String) : Nat × TaskManager :=
  let counters :=
    match lookupA tm.counters category with
    | some _ => tm.counters
    | none =>
      let max_num := tm.tasks.foldl
        (fun m p => if p.2.category = category ∧ p.2.number > m then p.2.number else m) 0
      setAssoc tm.counters category max_num
  let v := (lookupA counters category).getD 0 + 1
  (v, { tm with counters := setAssoc counters category v })

/-- `TaskManager.create_task`. A `None`/empty `category` argument means
auto-detection (Python `if not category`). -/
def TaskManager.create_task (tm : TaskManager) (title description : String)
    (proposed_solution : Json) (category : Option String) (now : Nat) : Task × TaskManager :=
  let cat :=
    match category with
    | some c => if c = "" then detect_category description else c
    | none => detect_category description
  let res := tm.getNextNumber cat
  let number := res.1
  let tm1 := res.2
  let task_id := cat ++ "-" ++ Nat.repr number
  let task : Task :=
    { id := task_id, category := cat, number := number, title := title,
      description := description, status := "drafting", requirements := [],
      context := .obj [],
      proposed_solution := if proposed_solution.truthy then proposed_solution else .obj [],
      created_at := now, updated_at := now, assigned_to := none }
  (task, { tm1 with tasks := setAssoc tm1.tasks task_id task })

/-- `TaskManager.add_refinement`: promote drafting to refining, then
record the refinement (no-op when the task is absent). -/
def TaskManager.add_refinement (tm : TaskManager) (task_id user_message : String)
    (bot_response action : Option String) (now : Nat) : TaskManager :=
  tm.modify task_id (fun t =>
    let t1 := if t.status = "drafting" then { t with status := "refining" } else t
    t1.add_refinement user_message bot_response action now)

/-- `TaskManager.approve_task`. -/
def TaskManager.approve_task (tm : TaskManager) (task_id : String) (now : Nat) : TaskManager :=
  tm.modify task_id (fun t => { t with status := "approved", updated_at := now })

/-- `TaskManager.set_task_status`. -/
def TaskManager.set_task_status (tm : TaskManager) (task_id status : String) (now : Nat) : TaskManager :=
  tm.modify task_id (fun t => { t with status := status, updated_at := now })

/-- `TaskManager.delete_task` (the boolean result is
`(tm.get_task id).isSome` at the call sites). -/
def TaskManager.delete_task (tm : TaskManager) (task_id : String) : TaskManager :=
  { tm with tasks := delAssoc tm.tasks task_id }

/-- `TaskManager.list_tasks()` with no status filter: all tasks sorted
by `updated_at` descending (Python's stable `sorted(..., reverse=True)`). -/
def TaskManager.list_tasks (tm : TaskManager) : List Task :=
  List.insertionSort (fun a b => b.updated_at ≤ a.updated_at) (tm.tasks.map Prod.snd)

/-- `TaskManager.to_dict`. -/
def TaskManager.to_dict (tm : TaskManager) : Json :=
  .obj [("session_key", .str tm.session_key),
        ("tasks", .obj (tm.tasks.map (fun p => (p.1, p.2.to_dict))))]

/-- The `"tasks"` entries of a serialized `TaskManager`. -/
def jsonTaskEntries (data : Json) : List (String × Json) :=
  match data.objGet "tasks" with
  | some (.obj fs) => fs
  | _ => []

/-- One step of `TaskManager.from_dict`'s loop: store the task and
restore the category counter to the maximum observed number. -/
def fromDictStep (now : Nat) (m : TaskManager) (e : String × Json) : TaskManager :=
  let task := Task.from_dict e.2 now
  let cs :=
    if (lookupA m.counters task.category).isSome then m.counters
    else setAssoc m.counters task.category 0
  let cs :=
    if task.number ≥ (lookupA cs task.category).getD 0 then setAssoc cs task.category task.number
    else cs
  { m with tasks := setAssoc m.tasks e.1 task, counters := cs }

/-- `TaskManager.from_dict`. -/
def TaskManager.from_dict (data : Json) (now : Nat) : TaskManager :=
  (jsonTaskEntries data).foldl (fromDictStep now)
    { session_key := data.strGetD "session_key" "", tasks := [], counters := [] }

/-! Embedding of `nanobot/agent/loop.py`.  The LLM provider, the
context builder (whose message-list type is the abstract `M`), the tool
registry and Python's randomized string hash are parameters of the
environment; the loop code treats all of them as black boxes. -/

/-- A tool call returned by the backend (`ToolCall` in the provider
interface). -/
structure ToolCall where
  id : String
  name : String
  arguments : Json

/-- A backend reply (`provider.chat(...)` result: content, tool calls
and the `has_tool_calls` flag). -/
structure LLMResponse where
  content : Option String
  tool_calls : List ToolCall
  has_tool_calls : Bool

/-- The structured outcome of `_analyze_development_task` when the
request is classified as a development task (defaults already applied;
`original_request` is always the message content and is supplied
separately). -/
structure DevAnalysis where
  analysis : String
  requirements : List String
  estimated_cost : String
  steps : List String

/-- The structured outcome of `_process_refinement`'s LLM
classification (after `result.get(...)` defaulting; `updates` and
`response` default to the empty string, which is Python-falsy). -/
structure RefineResult where
  is_approval : Bool
  is_question : Bool
  is_requirement : Bool
  new_requirements : List String
  updates : String
  response : String

/-- An inbound bus message (`InboundMessage` in `bus/events.py`). -/
structure InboundMessage where
  channel : String
  sender_id : String
  chat_id : String
  content : String
  metadata : Json

/-- An outbound bus message (`OutboundMessage` in `bus/events.py`). -/
structure OutboundMessage where
  channel : String
  chat_id : String
  content : String
  metadata : Json

/-- A session (`Session` in the session manager): the fields the agent
loop reads and writes.  History entries are `(role, content)` pairs. -/
structure Session where
  active_task_id : Option String
  pending_task : Option Json
  tasks : TaskManager
  history : List (String × String)

/-- The environment of external collaborators: `M` is the abstract
message-sequence type produced by the context builder.  `chat m b`
is `provider.chat` on sequence `m`, with `b` true when the tool schema
is offered.  `analyzeDev` and `classifyRefinement` are the parsed
outcomes of the two auxiliary LLM round-trips (`Except` models the
parse/provider failure caught by the code).  `pyHash` is Python's
process-randomized `hash` on strings. -/
structure Env (M : Type) where
  max_iterations : Nat
  now : Nat
  chat : M → Bool → LLMResponse
  buildMessages : List (String × String) → String → String → String → M
  addAssistant : M → Option String → List ToolCall → M
  addToolResult : M → String → String → String → M
  addUser : M → String → M
  execTool : String → Json → String
  analyzeDev : String → Option DevAnalysis
  classifyRefinement : String → Task → Except Unit RefineResult
  pyHash : String → Nat

/-- One tool-execution round of the agent loop: record the assistant
placeholder, then execute each call serially in order and append each
result (`loop.py` lines 519-542). -/
def toolRound {M : Type} (env : Env M) (m : M) (content : Option String)
    (tcs : List ToolCall) : M :=
  let m1 := env.addAssistant m content tcs
  tcs.foldl (fun acc tc => env.addToolResult acc tc.id tc.name (env.execTool tc.name tc.arguments)) m1

/-- The bounded tool-calling loop (`while iteration < max_iterations`),
returning the final text (if a tool-free reply arrived), the message
sequence, and the number of backend calls made. -/
def agentLoopIter {M : Type} (env : Env M) : Nat → M → Option String × M × Nat
  | 0, m => (none, m, 0)
  | fuel + 1, m =>
    let r := env.chat m true
    if r.has_tool_calls then
      let m1 := toolRound env m r.content r.tool_calls
      let res := agentLoopIter env fuel m1
      (res.1, res.2.1, res.2.2 + 1)
    else (r.content, m, 1)

/-- The summary request appended when the loop ends without text. -/
def summaryPromptText : String :=
  "请基于以上工具执行结果，用简洁的语言总结你完成的任务。"

/-- The `_process_message` turn core (`loop.py` lines 503-561): run the
bounded loop; if it produced no text, issue one forced summarization
call with no tools and fall back to a fixed non-empty string.  Returns
the final content and the total number of backend calls. -/
def processTurnCore {M : Type} (env : Env M) (m0 : M) : String × Nat :=
  let res := agentLoopIter env env.max_iterations m0
  match res.1 with
  | some s => (s, res.2.2)
  | none =>
    let m1 := env.addUser res.2.1 summaryPromptText
    let r := env.chat m1 false
    (pyOrStr r.content "✅ 任务已完成", res.2.2 + 1)

/-- An outbound reply to the originating message, carrying its metadata
through (thread addressing). -/
def mkOut (msg : InboundMessage) (content : String) : OutboundMessage :=
  { channel := msg.channel, chat_id := msg.chat_id, content := content, metadata := msg.metadata }

/-- Approval keywords of `_handle_task_refinement`. -/
def approvalWords : List String := ["yes", "y", "是", "ok", "confirm", "approve", "批准"]

/-- Rejection keywords of `_handle_task_refinement`. -/
def rejectionWords : List String := ["no", "n", "否", "cancel", "取消"]

/-- Approval keywords of the legacy `_handle_task_approval`. -/
def legacyYesWords : List String := ["yes", "y", "是", "ok", "confirm"]

/-- Rejection keywords of the legacy `_handle_task_approval`. -/
def legacyNoWords : List String := ["no", "n", "否", "cancel"]

/-- ASCII letter test (`[a-z]` with `re.IGNORECASE`). -/
def isAsciiLetter (c : Char) : Bool :=
  ('a' ≤ c && c ≤ 'z') || ('A' ≤ c && c ≤ 'Z')

/-- Decimal digit test (`\d` on ASCII input). -/
def isDigitChar (c : Char) : Bool :=
  '0' ≤ c && c ≤ '9'

/-- Backtracking step of the `\s+(.+)` tail of the task-reference
regex: try giving the dot-group the character at offset `k` of `rest`
(for `k` from the full whitespace run down to 1); `.` does not match a
newline. -/
def wsBacktrack : Nat → List Char → Option (List Char)
  | 0, _ => none
  | k + 1, rest =>
    match rest.drop (k + 1) with
    | c :: cs =>
      if c ≠ '\n' then some ((c :: cs).takeWhile (fun x => x ≠ '\n'))
      else wsBacktrack k rest
    | [] => wsBacktrack k rest

/-- `re.match(r'^([a-z]+-\d+)\s+(.+)', s, re.IGNORECASE)`: returns the
two groups (`group(1)` not yet lower-cased). -/
def taskRefMatch (s : String) : Option (String × String) :=
  let l := s.toList
  let letters := l.takeWhile isAsciiLetter
  if letters.isEmpty then none
  else
    match l.drop letters.length with
    | '-' :: rest2 =>
      let digits := rest2.takeWhile isDigitChar
      if digits.isEmpty then none
      else
        let rest3 := rest2.drop digits.length
        let ws := rest3.takeWhile isPySpace
        match wsBacktrack ws.length rest3 with
        | some grp2 => some (String.mk (letters ++ '-' :: digits), String.mk grp2)
        | none => none
    | _ => none

/-- Python `content[len(prefix):]` prefix-stripping loop of
`_extract_task_title` (checks lower-cased, slices the original). -/
def titlePrefixes : List String := ["我需要", "我想要", "帮我", "请", "can you", "i need", "please"]

/-- `AgentLoop._extract_task_title`. -/
def extractTaskTitle (content0 : String) : String :=
  let content := titlePrefixes.foldl (fun c p =>
    if pyStartsWith (pyLower c) p then pyStrip (dropStr c p.toList.length) else c) content0
  let first_line := pyStrip (firstLineStr (pyStrip content))
  if first_line.toList.length > 40 then
    let truncated := takeStr first_line 40
    let truncated :=
      match lastIdxOf ' ' truncated.toList with
      | some i => if i > 20 then takeStr truncated i else truncated
      | none => truncated
    truncated ++ "..."
  else first_line

/-- The `dev_task` dict assembled by `_analyze_development_task` for a
positive classification (keys in construction order). -/
def devTaskJson (content : String) (d : DevAnalysis) : Json :=
  .obj [("type", .str "dev_task"),
        ("original_request", .str content),
        ("analysis", .str d.analysis),
        ("requirements", .arr (d.requirements.map .str)),
        ("estimated_cost", .str d.estimated_cost),
        ("steps", .arr (d.steps.map .str))]

/-- The `task_prompt` built by `_execute_task`. -/
def taskPrompt (task : Task) (task_idU : String) : String :=
  let refinements : List Json :=
    match task.context.objGet "refinements" with
    | some (.arr xs) => xs
    | _ => []
  let refinement_text :=
    if !refinements.isEmpty then
      "\n\n用户需求迭代:\n" ++
        String.join (refinements.enum.map (fun p =>
          Nat.repr (p.1 + 1) ++ ". " ++ (p.2.strGetD "user" "") ++ "\n"))
    else ""
  let reqText :=
    if !task.requirements.isEmpty then
      String.intercalate "\n" (task.requirements.map (fun r => "  • " ++ r))
    else "  无特定需求"
  "Execute this development task:\n\n任务ID: " ++ task_idU ++ "\n标题: " ++ task.title ++
  "\n\n描述:\n" ++ task.description ++ "\n\n需求:\n" ++ reqText ++ refinement_text ++
  "\n\n方案:\n" ++ jsonDumps task.proposed_solution ++
  "\n\nWhen complete, provide:\n1. 完成内容摘要\n2. 创建/修改的文件列表\n3. 如何使用/测试结果\n4. 后续维护建议"

/-- The display id `f"TASK-{task.id[:4].upper()}"` used by
`_execute_task`. -/
def taskIdUOf (task : Task) : String :=
  "TASK-" ++ pyUpper (takeStr task.id 4)

/-- The system message `_execute_task` publishes to the inbound bus. -/
def execSysMsg (msg : InboundMessage) (task : Task) : InboundMessage :=
  { channel := "system", sender_id := "task_" ++ taskIdUOf task,
    chat_id := msg.channel ++ ":" ++ msg.chat_id,
    content := taskPrompt task (taskIdUOf task), metadata := .null }

/-- `AgentLoop._execute_task`: mark the task executing and publish the
system message whose `chat_id` is the colon-joined return address. -/
def executeTask {M : Type} (_env : Env M) (msg : InboundMessage) (s : Session) (task : Task) :
    Session × List InboundMessage × Option OutboundMessage :=
  let tm2 := s.tasks.modify task.id (fun t => { t with status := "executing" })
  ({ s with tasks := tm2 }, [execSysMsg msg task],
   some (mkOut msg ("✅ 任务已批准\n\n任务ID: `" ++ taskIdUOf task ++
     "`\n正在后台执行...\n\n发送 `status " ++ taskIdUOf task ++ "` 查询进度")))

/-- The approval transition (`_handle_task_refinement` approval branch):
approve, clear `active_task_id`, hand off to `_execute_task`. -/
def approvalTransition {M : Type} (env : Env M) (msg : InboundMessage) (s : Session)
    (task : Task) : Session × List InboundMessage × Option OutboundMessage :=
  let tm1 := s.tasks.approve_task task.id env.now
  executeTask env msg { s with active_task_id := none, tasks := tm1 } task

/-- The reply assembled at the end of a successful `_process_refinement`. -/
def refinementReply (msg : InboundMessage) (bot : String) (r : RefineResult) (task : Task) :
    OutboundMessage :=
  let lines0 := [pyOrS bot "✅ 已记录你的反馈", ""]
  let lines1 :=
    if !r.new_requirements.isEmpty then
      lines0 ++ ["**更新的需求**:"] ++ r.new_requirements.map (fun q => "  • " ++ q) ++ [""]
    else lines0
  let lines2 := lines1 ++
    ["---", "📋 当前任务: `" ++ task.id ++ "`",
     "状态: " ++ task.statusEmoji ++ " `" ++ task.status ++ "`",
     "需求数: " ++ Nat.repr task.requirements.length, "",
     "回复 `yes` 批准执行，或继续补充需求"]
  mkOut msg (String.intercalate "\n" lines2)

/-- `AgentLoop._process_refinement`: classify free text against the
active task; an approval classification recurses into the approval
transition; parse/provider failure records the refinement verbatim and
falls through (`none` reply) to normal processing. -/
def processRefinement {M : Type} (env : Env M) (msg : InboundMessage) (s : Session)
    (task : Task) : Session × List InboundMessage × Option OutboundMessage :=
  match env.classifyRefinement msg.content task with
  | .error _ =>
    let tm1 := s.tasks.add_refinement task.id msg.content none none env.now
    ({ s with tasks := tm1 }, [], none)
  | .ok r =>
    if r.is_approval then approvalTransition env msg s task
    else
      let bot := r.response
      let tm1 := s.tasks.add_refinement task.id msg.content (some bot) none env.now
      let tm2 :=
        if !r.new_requirements.isEmpty then
          tm1.modify task.id (fun t => t.update_requirements r.new_requirements env.now)
        else tm1
      let tm3 :=
        if r.updates ≠ "" then
          tm2.modify task.id (fun t => { t with description := t.description ++ "\n\n更新: " ++ r.updates })
        else tm2
      let tFinal := (tm3.get_task task.id).getD task
      ({ s with tasks := tm3 }, [], some (refinementReply msg bot r tFinal))

/-- `AgentLoop._handle_task_refinement`: dispatch user input against the
active task.  The `/task`-prefixed sub-branch is unreachable from
`_process_message` (step 1 intercepts those commands first) and raises a
`TypeError` in the source because the call passes one positional
argument too many; it is modelled as the exception it raises. -/
def handleTaskRefinement {M : Type} (env : Env M) (msg : InboundMessage) (s : Session) :
    Except String (Session × List InboundMessage × Option OutboundMessage) :=
  let content := pyLower (pyStrip msg.content)
  let otask :=
    if optTruthy s.active_task_id then s.tasks.get_task (s.active_task_id.getD "") else none
  match otask with
  | none => .ok ({ s with active_task_id := none }, [], none)
  | some task =>
    if content ∈ approvalWords then
      .ok (approvalTransition env msg s task)
    else if content ∈ rejectionWords then
      let tm1 := s.tasks.set_task_status task.id "cancelled" env.now
      .ok ({ s with active_task_id := none, tasks := tm1 }, [], some (mkOut msg "❌ 任务已取消"))
    else if pyStartsWith content "/task" then
      .error "TypeError: AgentLoop._handle_task_command() takes from 4 to 5 positional arguments but 6 were given"
    else
      .ok (processRefinement env msg s task)

/-- `AgentLoop._handle_task_command` (`/task show|status|list|clear|delete`).
Returns the possibly-updated session and the reply (every branch of the
source returns a message). -/
def handleTaskCommand (msg : InboundMessage) (s : Session) (task0 : Option Task)
    (contentArg : Option String) : Session × OutboundMessage :=
  let content := contentArg.getD (pyLower (pyStrip msg.content))
  let parts := splitWs content
  let cmd := (parts.get? 1).getD ""
  let arg := (parts.get? 2).getD ""
  let tm := s.tasks
  if cmd = "show" ∨ cmd = "status" then
    let t1 := if arg ≠ "" then tm.get_task arg else task0
    let t2 :=
      match t1 with
      | some t => some t
      | none =>
        if optTruthy s.active_task_id then tm.get_task (s.active_task_id.getD "") else none
    match t2 with
    | none =>
      (s, mkOut msg (if arg ≠ "" then
        "📋 任务 `" ++ arg ++ "` 不存在\n\n发送一个功能请求来创建新任务"
        else "📋 没有活动任务\n\n发送一个功能请求来创建新任务"))
    | some t => (s, mkOut msg t.format_for_user)
  else if cmd = "list" then
    let all_tasks := tm.list_tasks
    if all_tasks.isEmpty then
      (s, mkOut msg "📋 暂无任务\n\n发送一个功能请求来创建新任务")
    else
      let lines := "📋 **任务列表**\n" :: all_tasks.enum.map (fun p =>
        let t := p.2
        let title :=
          if t.description ≠ "" then pyOrS t.title (takeStr (firstLineStr t.description) 35)
          else "未命名"
        let marker := if s.active_task_id = some t.id then " ← *进行中*" else ""
        Nat.repr (p.1 + 1) ++ ". " ++ t.statusEmoji ++ " " ++ title ++ marker)
      (s, mkOut msg (String.intercalate "\n" lines))
  else if cmd = "clear" then
    if optTruthy s.active_task_id then
      ({ s with active_task_id := none }, mkOut msg "✅ 已清除当前活动任务")
    else (s, mkOut msg "没有活动任务需要清除")
  else if cmd = "delete" ∧ arg ≠ "" then
    if (tm.get_task arg).isSome then
      let act1 := if s.active_task_id = some arg then none else s.active_task_id
      let s1 := { s with tasks := tm.delete_task arg, active_task_id := act1 }
      (s1, mkOut msg ("✅ 已删除任务 `" ++ arg ++ "`"))
    else (s, mkOut msg ("❌ 任务 `" ++ arg ++ "` 不存在"))
  else if cmd = "" then
    let all_tasks := tm.list_tasks
    if !all_tasks.isEmpty then
      let lines := ["📋 **任务**\n", ""] ++ (all_tasks.take 3).map (fun t =>
        let title :=
          if t.description ≠ "" then pyOrS t.title (takeStr (firstLineStr t.description) 30)
          else "未命名"
        let marker := if s.active_task_id = some t.id then " ← *进行中*" else ""
        t.statusEmoji ++ " " ++ title ++ marker) ++ ["\n可用: /task show, /task list, /task clear"]
      (s, mkOut msg (String.intercalate "\n" lines))
    else
      (s, mkOut msg (String.intercalate "\n" ["📋 暂无任务", "", "发送功能请求来创建新任务"]))
  else (s, mkOut msg "可用命令: /task show, /task list, /task clear")

/-- The legacy task prompt of `_handle_task_approval` (f-string
interpolation of the raw requirement/step lists). -/
def legacyPrompt (pending : Json) : String :=
  "Execute this development task:\n" ++ pending.strGetD "original_request" "" ++
  "\n\nRequirements: " ++ pyReprJson ((pending.objGet "requirements").getD (.arr [])) ++
  "\nSteps: " ++ pyReprJson ((pending.objGet "steps").getD (.arr [])) ++
  "\n\nWhen complete, provide:\n1. Summary of what was done\n2. Any files created/modified\n3. How to use/test the result\n4. Any guidelines for future maintenance"

/-- `AgentLoop._handle_task_approval`: the legacy single-slot pending
task flow (the replies carry no metadata in the source). -/
def legacyTaskApproval {M : Type} (env : Env M) (msg : InboundMessage) (s : Session) :
    Session × List InboundMessage × Option OutboundMessage :=
  let content := pyLower (pyStrip msg.content)
  let pending := s.pending_task.getD .null
  if content ∈ legacyYesWords then
    let orig := pending.strGetD "original_request" ""
    let tidS := "TASK-" ++ padZeros 4 (env.pyHash orig % 10000)
    let sysMsg : InboundMessage :=
      { channel := "system", sender_id := "task_" ++ tidS,
        chat_id := msg.channel ++ ":" ++ msg.chat_id,
        content := legacyPrompt pending, metadata := .null }
    ({ s with pending_task := none }, [sysMsg],
     some { channel := msg.channel, chat_id := msg.chat_id,
            content := "✅ 任务已批准\n\n任务ID: `" ++ tidS ++
              "`\n正在后台执行，完成后会通知你。\n\n你可以发送 `status " ++ tidS ++ "` 查询进度。",
            metadata := .null })
  else if content ∈ legacyNoWords then
    ({ s with pending_task := none }, [],
     some { channel := msg.channel, chat_id := msg.chat_id, content := "❌ 任务已取消",
            metadata := .null })
  else
    (s, [], some { channel := msg.channel, chat_id := msg.chat_id,
                   content := "请回复 `yes` 确认执行，或 `no` 取消任务", metadata := .null })

/-- The task-reference branch target: regex-match the stripped content
against `^([a-z]+-\d+)\s+(.+)` and look the lower-cased id up; `none`
when the regex fails or the task does not exist (both fall through). -/
def taskRefTarget (s : Session) (content_stripped : String) : Option (Task × String × String) :=
  match taskRefMatch content_stripped with
  | some (tidRaw, refc) =>
    let rtid := pyLower tidRaw
    match s.tasks.get_task rtid with
    | some t => some (t, rtid, refc)
    | none => none
  | none => none

/-- The task-reference branch of `_process_message`: record the tail as
a refinement, force the task to refining, activate it, and re-display. -/
def refByIdBranch {M : Type} (env : Env M) (msg : InboundMessage) (s : Session)
    (rtid refc : String) : Session × List InboundMessage × Option OutboundMessage :=
  let tm1 := s.tasks.modify rtid (fun t =>
    let t1 := t.add_refinement refc none (some "modified") env.now
    { t1 with status := "refining" })
  let s1 := { s with active_task_id := some rtid, tasks := tm1 }
  let tFinal := (tm1.get_task rtid).getD (Task.mkDefault env.now)
  let lines :=
    ["📝 已添加到 `" ++ tFinal.id ++ "` - *" ++ tFinal.title ++ "*", "",
     "**新需求:**", "  " ++ refc, "", tFinal.format_for_user, "", "---",
     "回复 `yes` 执行，或继续补充需求。"]
  (s1, [], some (mkOut msg (String.intercalate "\n" lines)))

/-- Whether a task's (non-empty) title or description equals the
lower-cased message content (`_process_message` duplicate check;
Python's truthiness test skips empty titles and descriptions). -/
def matchesContent (content_lower : String) (t : Task) : Bool :=
  (t.title != "" && pyLower t.title == content_lower) ||
  (t.description != "" && pyLower t.description == content_lower)

/-- The session's tasks sorted by creation time ascending (stable), as
scanned by the duplicate check. -/
def tasksByCreation (tm : TaskManager) : List Task :=
  List.insertionSort (fun a b => a.created_at ≤ b.created_at) (tm.tasks.map Prod.snd)

/-- The re-display reply for a duplicate request. -/
def redisplayReply (msg : InboundMessage) (t : Task) : OutboundMessage :=
  mkOut msg ("ℹ️ 这个任务已存在:\n\n" ++ t.format_for_user ++
    "\n\n---\n回复 `yes` 继续执行此任务，或发送新需求创建新任务。")

/-- The created-task reply of `_create_task` (its `lines` list ends
with an empty element). -/
def createdReplyText (t : Task) : String :=
  String.intercalate "\n"
    ["✅ 任务已创建: `" ++ t.id ++ "`", "", t.format_for_user, "", "---", "💡 你可以:",
     "  • 补充或修改需求 (直接发送)", "  • 提问相关问题", "  • 回复 `yes` 批准执行",
     "  • 回复 `cancel` 取消任务", ""]

/-- `AgentLoop._create_task`: create the task (drafting), merge the
analyzed requirements, activate it, then promote it to refining before
display. -/
def createTaskBranch {M : Type} (env : Env M) (msg : InboundMessage) (s : Session)
    (d : DevAnalysis) : Session × List InboundMessage × Option OutboundMessage :=
  let title := extractTaskTitle msg.content
  let psol := devTaskJson msg.content d
  let res := s.tasks.create_task title msg.content psol none env.now
  let task := res.1
  let tm1 := res.2
  let tm2 :=
    if !d.requirements.isEmpty then
      tm1.modify task.id (fun t => t.update_requirements d.requirements env.now)
    else tm1
  let tm3 := tm2.modify task.id (fun t => { t with status := "refining" })
  let s1 := { s with active_task_id := some task.id, tasks := tm3 }
  let tFinal := (tm3.get_task task.id).getD task
  (s1, [], some (mkOut msg (createdReplyText tFinal)))

/-- The normal conversational turn (`_process_message` step 9): build
the sequence, run the bounded loop, append the turn to history. -/
def normalTurn {M : Type} (env : Env M) (msg : InboundMessage) (s : Session) :
    Session × List InboundMessage × Option OutboundMessage :=
  let m0 := env.buildMessages s.history msg.content msg.channel msg.chat_id
  let final := (processTurnCore env m0).1
  ({ s with history := s.history ++ [("user", msg.content), ("assistant", final)] }, [],
   some (mkOut msg final))

/-- Steps 6-9 of the `_process_message` dispatch: legacy pending-task
approval, task-reference refinement, duplicate re-display, development
classification, normal turn. -/
def dispatchRest {M : Type} (env : Env M) (msg : InboundMessage) (s : Session) :
    Session × List InboundMessage × Option OutboundMessage :=
  if jsonOptTruthy s.pending_task ∧ ¬ optTruthy s.active_task_id then
    legacyTaskApproval env msg s
  else
    let content_stripped := pyStrip msg.content
    let content_lower := pyLower content_stripped
    match taskRefTarget s content_stripped with
    | some (_, rtid, refc) => refByIdBranch env msg s rtid refc
    | none =>
      let existing := (tasksByCreation s.tasks).find? (matchesContent content_lower)
      match existing with
      | some t =>
        if msg.channel ≠ "cli" then (s, [], some (redisplayReply msg t))
        else
          match env.analyzeDev msg.content with
          | some d =>
            if msg.channel ≠ "cli" ∧ ¬ optTruthy s.active_task_id then
              createTaskBranch env msg s d
            else normalTurn env msg s
          | none => normalTurn env msg s
      | none =>
        match env.analyzeDev msg.content with
        | some d =>
          if msg.channel ≠ "cli" ∧ ¬ optTruthy s.active_task_id then
            createTaskBranch env msg s d
          else normalTurn env msg s
        | none => normalTurn env msg s

/-- `AgentLoop._process_message` for non-system channels: the ordered
dispatch (task command, active-task refinement, then the rest).  The
acknowledgment heuristic only performs an immediate side send and
touches no state, so it is not represented.  Returns the updated
session, the messages published to the inbound bus, and the reply. -/
def processNonSystem {M : Type} (env : Env M) (msg : InboundMessage) (s : Session) :
    Except String (Session × List InboundMessage × Option OutboundMessage) :=
  let contentSL := pyLower (pyStrip msg.content)
  if pyStartsWith contentSL "/task" ∧ msg.channel ≠ "cli" then
    let r := handleTaskCommand msg s none none
    .ok (r.1, [], some r.2)
  else if optTruthy s.active_task_id ∧ msg.channel ≠ "cli" then
    match handleTaskRefinement env msg s with
    | .error e => .error e
    | .ok (s1, pubs, some rep) => .ok (s1, pubs, some rep)
    | .ok (s1, pubs, none) =>
      let r := dispatchRest env msg s1
      .ok (r.1, pubs ++ r.2.1, r.2.2)
  else .ok (dispatchRest env msg s)

/-- `AgentLoop._process_system_message`: parse the return address from
`chat_id` (first colon), resolve the origin session, run the bounded
loop (with the fixed fallback text instead of a forced summary), and
address the reply to the origin. -/
def processSystemMessage {M : Type} (env : Env M) (store : String → Session)
    (msg : InboundMessage) : String × Session × OutboundMessage :=
  let origin :=
    match splitOnceChar ':' msg.chat_id.toList with
    | some (a, b) => (String.mk a, String.mk b)
    | none => ("cli", msg.chat_id)
  let origin_channel := origin.1
  let origin_chat_id := origin.2
  let session_key := origin_channel ++ ":" ++ origin_chat_id
  let s := store session_key
  let m0 := env.buildMessages s.history msg.content origin_channel origin_chat_id
  let res := agentLoopIter env env.max_iterations m0
  let final := match res.1 with | some t => t | none => "Background task completed."
  let s1 := { s with history := s.history ++
    [("user", "[System: " ++ msg.sender_id ++ "] " ++ msg.content), ("assistant", final)] }
  (session_key, s1,
   { channel := origin_channel, chat_id := origin_chat_id, content := final, metadata := .null })

/-- The session key of a non-system message, `"{channel}:{chat_id}"`
(`InboundMessage.session_key`; the separator is visible in
`_process_system_message`, which rebuilds origin keys the same way). -/
def sessionKeyOf (msg : InboundMessage) : String :=
  msg.channel ++ ":" ++ msg.chat_id

/-- `AgentLoop._process_message`: system messages go to the announce
handler, everything else through the ordered dispatch on its session. -/
def processMessage {M : Type} (env : Env M) (store : String → Session) (msg : InboundMessage) :
    Except String (String × Session × List InboundMessage × Option OutboundMessage) :=
  if msg.channel = "system" then
    let r := processSystemMessage env store msg
    .ok (r.1, r.2.1, [], some r.2.2)
  else
    match processNonSystem env msg (store (sessionKeyOf msg)) with
    | .error e => .error e
    | .ok (s1, pubs, rep) => .ok (sessionKeyOf msg, s1, pubs, rep)

/-- The error reply built by `AgentLoop.run`'s exception handler. -/
def errorReply (msg : InboundMessage) (e : String) : OutboundMessage :=
  { channel := msg.channel, chat_id := msg.chat_id,
    content := "Sorry, I encountered an error: " ++ e, metadata := .null }

/-- One iteration of `AgentLoop.run`'s message handling: the outbound
messages published for one consumed message (the normal reply, or the
error reply when processing raised). -/
def runStep (process : InboundMessage → Except String (Option OutboundMessage))
    (msg : InboundMessage) : List OutboundMessage :=
  match process msg with
  | .ok (some r) => [r]
  | .ok none => []
  | .error e => [errorReply msg e]

/-- `AgentLoop.run` over a finite inbound stream: every message is
handled in order; a failure produces the error reply and the loop
continues with the next message. -/
def runLoop (process : InboundMessage → Except String (Option OutboundMessage)) :
    List InboundMessage → List OutboundMessage
  | [] => []
  | m :: ms => runStep process m ++ runLoop process ms

/-! Concrete instances used to exercise the definitions. -/

/-- A trivial environment over the unit message-sequence type whose
backend always answers `"done"` with no tool calls. -/
def envPlain : Env Unit :=
  { max_iterations := 3, now := 7,
    chat := fun _ _ => { content := some "done", tool_calls := [], has_tool_calls := false },
    buildMessages := fun _ _ _ _ => (),
    addAssistant := fun m _ _ => m,
    addToolResult := fun m _ _ _ => m,
    addUser := fun m _ => m,
    execTool := fun _ _ => "",
    analyzeDev := fun _ => none,
    classifyRefinement := fun _ _ => .error (),
    pyHash := fun _ => 0 }

/-- A backend that ends the loop with a tool-free empty-string answer. -/
def envEmptyAnswer : Env Unit :=
  { envPlain with
    chat := fun _ _ => { content := some "", tool_calls := [], has_tool_calls := false } }

/-- A concrete inbound message on a non-CLI channel. -/
def msgW : InboundMessage :=
  { channel := "telegram", sender_id := "u1", chat_id := "42", content := "hi",
    metadata := .null }

/-- An empty task manager for a session key. -/
def tmEmpty (key : String) : TaskManager :=
  { session_key := key, tasks := [], counters := [] }

/-- A fresh session with no tasks, no pending task and no history. -/
def sessEmpty : Session :=
  { active_task_id := none, pending_task := none, tasks := tmEmpty "w", history := [] }

/-- A concrete system (announce) message with a colon-joined return
address. -/
def msgSysW : InboundMessage :=
  { channel := "system", sender_id := "subagent", chat_id := "slack:C123",
    content := "result ready", metadata := .null }

/-- A concrete system message whose chat id carries no colon. -/
def msgSysNoColon : InboundMessage :=
  { channel := "system", sender_id := "subagent", chat_id := "C123",
    content := "result ready", metadata := .null }

/-- A task whose id does not encode its category/number fields (the id
prefix `"xyz"` is not a known category). -/
def taskCexC6 : Task :=
  { id := "xyz-5", category := "app", number := 3, title := "t", description := "d",
    status := "refining", requirements := ["r1"], context := .obj [],
    proposed_solution := .obj [], created_at := 1, updated_at := 2, assigned_to := none }

/-- A well-formed task as `create_task` produces them. -/
def taskApp2 : Task :=
  { id := "app-2", category := "app", number := 2, title := "blog", description := "build a web site",
    status := "refining", requirements := ["storage"], context := .obj [],
    proposed_solution := .obj [], created_at := 5, updated_at := 6, assigned_to := none }

/-- The maximum task number observed in a task map for a category
(0 when the category has no task, matching the counter seed). -/
def maxNumberOf (ts : List (String × Task)) (cat : String) : Nat :=
  ts.foldl (fun m p => if p.2.category = cat then max m p.2.number else m) 0

/-- The counter-consistency invariant restored by
`TaskManager.from_dict`: every present counter equals the maximum
observed number of its category, and a category with no counter has no
tasks. -/
def countersOk (m : TaskManager) : Prop :=
  ∀ c : String,
    (∀ v, lookupA m.counters c = some v → v = maxNumberOf m.tasks c) ∧
    (lookupA m.counters c = none → ∀ p ∈ m.tasks, p.2.category ≠ c)

/-- A serialized `TaskManager` holding tasks `app-1` and `app-3`. -/
def dataW : Json :=
  .obj [("session_key", .str "k"),
        ("tasks", .obj
          [("app-1", ({ taskApp2 with id := "app-1", number := 1 } : Task).to_dict),
           ("app-3", ({ taskApp2 with id := "app-3", number := 3 } : Task).to_dict)])]

/-- Task `app-1`, refining. -/
def taskApp1 : Task := { taskApp2 with id := "app-1", number := 1 }

/-- A session whose active task is `app-1`. -/
def sessActive : Session :=
  { active_task_id := some "app-1", pending_task := none,
    tasks := { session_key := "w", tasks := [("app-1", taskApp1)], counters := [("app", 1)] },
    history := [] }

/-- A concrete approval message. -/
def msgYes : InboundMessage :=
  { channel := "telegram", sender_id := "u1", chat_id := "42", content := "yes",
    metadata := .null }

/-- No task acquires status `"completed"` or `"failed"` in `post` that
did not already have it in `pre`: the relation every user-input
dispatch path preserves. -/
def noNewDone (pre post : TaskManager) : Prop :=
  ∀ tid t', post.get_task tid = some t' →
    (t'.status = "completed" ∨ t'.status = "failed") →
    ∃ t, pre.get_task tid = some t ∧ t.status = t'.status

/-- The statuses an active task may hold. -/
def okStatus (st : String) : Prop :=
  st = "drafting" ∨ st = "refining" ∨ st = "approved" ∨ st = "executing"

/-- The session invariant of the spec: the (at most one) active task
pointer names a task in the session's manager whose status is
drafting, refining, approved, or executing. -/
def SessionInv (s : Session) : Prop :=
  ∀ tid, s.active_task_id = some tid →
    ∃ t, s.tasks.get_task tid = some t ∧ okStatus t.status

/-- A concrete rejection message. -/
def msgNo : InboundMessage :=
  { channel := "telegram", sender_id := "u1", chat_id := "42", content := "no",
    metadata := .null }

/-- A task with an empty (Python-falsy) description, which the
duplicate check skips. -/
def taskEmptyDesc : Task :=
  { taskApp1 with title := "t", description := "", status := "refining" }

/-- A session holding only `taskEmptyDesc`, with no active or pending
task. -/
def sessMatchCex : Session :=
  { active_task_id := none, pending_task := none,
    tasks := { session_key := "w", tasks := [("app-1", taskEmptyDesc)],
               counters := [("app", 1)] },
    history := [] }

/-- A message whose content strips to the empty string. -/
def msgBlank : InboundMessage :=
  { channel := "telegram", sender_id := "u1", chat_id := "42", content := " ",
    metadata := .null }

/-- A structured positive development-task analysis. -/
def devA : DevAnalysis :=
  { analysis := "a", requirements := [], estimated_cost := "30m", steps := [] }

/-- An environment whose classifier marks everything a dev task. -/
def envDev : Env Unit := { envPlain with analyzeDev := fun _ => some devA }

/-- A session holding only `taskApp1` (title `"blog"`, description
`"build a web site"`). -/
def sessMatch : Session :=
  { active_task_id := none, pending_task := none,
    tasks := { session_key := "w", tasks := [("app-1", taskApp1)], counters := [("app", 1)] },
    history := [] }

/-- A message that matches `taskApp1`'s description case-insensitively. -/
def msgDup : InboundMessage :=
  { channel := "telegram", sender_id := "u1", chat_id := "42",
    content := "Build A Web Site", metadata := .null }

end Nanobot

namespace Nanobot

/-! Helper lemmas. -/

theorem pyOrStr_ne_empty (o : Option String) (d : String) (hd : d ≠ "") :
    pyOrStr o d ≠ "" := by
  cases o with
  | none => simpa [pyOrStr] using hd
  | some s =>
    by_cases hs : s = "" <;> simp [pyOrStr, hs, hd]

theorem splitOnceChar_sound (c : Char) :
    ∀ l a b, splitOnceChar c l = some (a, b) → l = a ++ c :: b ∧ c ∉ a := by
  intro l
  induction l with
  | nil => intro a b h; simp [splitOnceChar] at h
  | cons d ds ih =>
    intro a b h
    by_cases hd : d = c
    · simp only [splitOnceChar, if_pos hd] at h
      obtain ⟨ha, hb⟩ := Prod.mk.injEq .. ▸ (Option.some.injEq .. ▸ h)
      subst hd; subst hb
      simp [← ha]
    · simp only [splitOnceChar, if_neg hd] at h
      cases hsp : splitOnceChar c ds with
      | none => rw [hsp] at h; exact absurd h (by simp)
      | some p =>
        rw [hsp] at h
        obtain ⟨a', b'⟩ := p
        simp only [Option.some.injEq, Prod.mk.injEq] at h
        obtain ⟨ha, hb⟩ := h
        obtain ⟨hl, hnm⟩ := ih a' b' hsp
        subst hb
        constructor
        · rw [← ha]; simp [hl]
        · rw [← ha]
          intro hmem
          rcases List.mem_cons.mp hmem with h1 | h2
          · exact hd h1.symm
          · exact hnm h2

theorem splitOnceChar_isSome_of_mem (c : Char) :
    ∀ l, c ∈ l → (splitOnceChar c l).isSome := by
  intro l
  induction l with
  | nil => intro h; simp at h
  | cons d ds ih =>
    intro h
    by_cases hd : d = c
    · simp [splitOnceChar, hd]
    · rcases List.mem_cons.mp h with h1 | h2
      · exact absurd h1.symm hd
      · have := ih h2
        cases hsp : splitOnceChar c ds with
        | none => rw [hsp] at this; simp at this
        | some p => simp [splitOnceChar, hd, hsp]

theorem splitOnceChar_none_of_not_mem (c : Char) :
    ∀ l, c ∉ l → splitOnceChar c l = none := by
  intro l
  induction l with
  | nil => intro _; rfl
  | cons d ds ih =>
    intro h
    have hd : d ≠ c := fun he => h (he ▸ List.mem_cons_self d ds)
    have hds : c ∉ ds := fun hm => h (List.mem_cons_of_mem d hm)
    simp [splitOnceChar, hd, ih hds]

theorem agentLoopIter_calls_le {M : Type} (env : Env M) :
    ∀ n m, (agentLoopIter env n m).2.2 ≤ n := by
  intro n
  induction n with
  | zero => intro m; simp [agentLoopIter]
  | succ k ih =>
    intro m
    simp only [agentLoopIter]
    by_cases h : (env.chat m true).has_tool_calls
    · simp only [h, if_true]
      exact Nat.succ_le_succ (ih _)
    · simp [h]

theorem agentLoopIter_some_src {M : Type} (env : Env M) :
    ∀ n m s, (agentLoopIter env n m).1 = some s →
      ∃ m', (env.chat m' true).has_tool_calls = false ∧ (env.chat m' true).content = some s := by
  intro n
  induction n with
  | zero => intro m s h; simp [agentLoopIter] at h
  | succ k ih =>
    intro m s h
    simp only [agentLoopIter] at h
    by_cases htc : (env.chat m true).has_tool_calls
    · simp only [htc, if_true] at h
      exact ih _ s h
    · simp only [htc, if_false] at h
      exact ⟨m, by simpa using htc, h⟩

/-! Claim theorems. -/

/-- C1 counterexample: a backend whose very first reply is tool-free
with empty-string text makes the bounded loop finish with an empty
final reply content (after a single backend call, within the budget of
`max_iterations + 1 = 4`), so the content is not always non-empty as
the claim states. -/
theorem processTurnCore_empty_content_cex :
    (processTurnCore envEmptyAnswer ()).1 = "" ∧
    (processTurnCore envEmptyAnswer ()).2 = 1 ∧
    (processTurnCore envEmptyAnswer ()).2 ≤ envEmptyAnswer.max_iterations + 1 := by
  refine ⟨rfl, rfl, by decide⟩

/-- C1 (amended): the bounded tool-calling loop of `_process_message`
makes at most `max_iterations + 1` backend calls, makes exactly one
additional forced summarization call precisely when the loop itself
produced no text answer, and the final content is non-empty provided
every tool-free backend reply inside the loop carries text other than
the empty string (a `None` text answer still triggers the non-empty
fallback). -/
theorem processTurnCore_bounded_and_nonempty {M : Type} (env : Env M) (m0 : M)
    (hne : ∀ m, (env.chat m true).has_tool_calls = false →
      (env.chat m true).content ≠ some "") :
    (processTurnCore env m0).2 ≤ env.max_iterations + 1 ∧
    (processTurnCore env m0).2 =
      (agentLoopIter env env.max_iterations m0).2.2 +
        (if (agentLoopIter env env.max_iterations m0).1 = none then 1 else 0) ∧
    (processTurnCore env m0).1 ≠ "" := by
  have hle := agentLoopIter_calls_le env env.max_iterations m0
  cases hres : (agentLoopIter env env.max_iterations m0).1 with
  | some s =>
    have hcore : processTurnCore env m0 = (s, (agentLoopIter env env.max_iterations m0).2.2) := by
      simp [processTurnCore, hres]
    refine ⟨?_, ?_, ?_⟩
    · rw [hcore]; exact Nat.le_succ_of_le hle
    · simp [hcore, hres]
    · rw [hcore]
      obtain ⟨m', hm1, hm2⟩ := agentLoopIter_some_src env env.max_iterations m0 s hres
      intro hs
      exact hne m' hm1 (by rw [hm2]; exact congrArg some hs)
  | none =>
    have hcore : processTurnCore env m0 =
        (pyOrStr (env.chat (env.addUser (agentLoopIter env env.max_iterations m0).2.1
          summaryPromptText) false).content "✅ 任务已完成",
         (agentLoopIter env env.max_iterations m0).2.2 + 1) := by
      simp [processTurnCore, hres]
    refine ⟨?_, ?_, ?_⟩
    · rw [hcore]; exact Nat.succ_le_succ hle
    · simp [hcore, hres]
    · rw [hcore]
      exact pyOrStr_ne_empty _ _ (by decide)

/-- C1 witness: the amended theorem applied to a concrete backend whose
only reply is the tool-free text `"done"`. -/
theorem processTurnCore_bounded_and_nonempty_witness :
    (processTurnCore envPlain ()).2 ≤ envPlain.max_iterations + 1 ∧
    (processTurnCore envPlain ()).2 =
      (agentLoopIter envPlain envPlain.max_iterations ()).2.2 +
        (if (agentLoopIter envPlain envPlain.max_iterations ()).1 = none then 1 else 0) ∧
    (processTurnCore envPlain ()).1 ≠ "" :=
  processTurnCore_bounded_and_nonempty envPlain () (fun m _ => by cases m; decide)

/-- C2: if per-message processing fails with any exception, the run
loop publishes exactly the apologetic error reply, addressed to the
originating message's channel and chat id, and goes on to process the
remaining messages. -/
theorem runLoop_error_boundary
    (process : InboundMessage → Except String (Option OutboundMessage))
    (msg : InboundMessage) (rest : List InboundMessage) (e : String)
    (h : process msg = .error e) :
    runLoop process (msg :: rest) = errorReply msg e :: runLoop process rest ∧
    (errorReply msg e).channel = msg.channel ∧
    (errorReply msg e).chat_id = msg.chat_id := by
  refine ⟨?_, rfl, rfl⟩
  simp [runLoop, runStep, h]

/-- C2 witness: a processing function that always raises still lets the
loop emit the error reply and continue. -/
theorem runLoop_error_boundary_witness :
    runLoop (fun _ => .error "boom") (msgW :: []) =
      errorReply msgW "boom" :: runLoop (fun _ => .error "boom") [] ∧
    (errorReply msgW "boom").channel = msgW.channel ∧
    (errorReply msgW "boom").chat_id = msgW.chat_id :=
  runLoop_error_boundary (fun _ => .error "boom") msgW [] "boom" rfl

/-- C3: processing a system message whose chat id contains a colon
splits the chat id at its first colon into the origin channel and
origin chat id, and the final reply is addressed there, whatever the
session store holds (i.e., independently of which session spawned the
subagent). -/
theorem systemMessage_routes_to_origin {M : Type} (env : Env M) (store : String → Session)
    (msg : InboundMessage) (h_sys : msg.channel = "system")
    (h_colon : ':' ∈ msg.chat_id.toList) :
    ∃ a b, splitOnceChar ':' msg.chat_id.toList = some (a, b) ∧
      msg.chat_id.toList = a ++ ':' :: b ∧ ':' ∉ a ∧
      ∃ key s1 out, processMessage env store msg = .ok (key, s1, [], some out) ∧
        out.channel = String.mk a ∧ out.chat_id = String.mk b := by
  have hsome := splitOnceChar_isSome_of_mem ':' _ h_colon
  cases hsp : splitOnceChar ':' msg.chat_id.toList with
  | none => rw [hsp] at hsome; simp at hsome
  | some p =>
    obtain ⟨a, b⟩ := p
    obtain ⟨hl, hna⟩ := splitOnceChar_sound ':' _ a b hsp
    have hspd : splitOnceChar ':' msg.chat_id.data = some (a, b) := hsp
    have hchan : (processSystemMessage env store msg).2.2.channel = String.mk a := by
      simp [processSystemMessage, hspd]
    have hchat : (processSystemMessage env store msg).2.2.chat_id = String.mk b := by
      simp [processSystemMessage, hspd]
    exact ⟨a, b, hsp ▸ rfl, hl, hna, (processSystemMessage env store msg).1,
      (processSystemMessage env store msg).2.1, (processSystemMessage env store msg).2.2,
      by simp only [processMessage, if_pos h_sys], hchan, hchat⟩

/-- C3 witness: chat id `"slack:C123"` yields a reply on channel
`"slack"`, chat `"C123"`. -/
theorem systemMessage_routes_to_origin_witness :
    ∃ a b, splitOnceChar ':' msgSysW.chat_id.toList = some (a, b) ∧
      msgSysW.chat_id.toList = a ++ ':' :: b ∧ ':' ∉ a ∧
      ∃ key s1 out,
        processMessage envPlain (fun _ => sessEmpty) msgSysW = .ok (key, s1, [], some out) ∧
        out.channel = String.mk a ∧ out.chat_id = String.mk b :=
  systemMessage_routes_to_origin envPlain (fun _ => sessEmpty) msgSysW rfl (by decide)

/-- C10: processing a system message whose chat id contains no colon
falls back to routing the reply to channel `"cli"` with the chat id
passed through unchanged. -/
theorem systemMessage_fallback_cli {M : Type} (env : Env M) (store : String → Session)
    (msg : InboundMessage) (h_sys : msg.channel = "system")
    (h_nocolon : ':' ∉ msg.chat_id.toList) :
    ∃ key s1 out, processMessage env store msg = .ok (key, s1, [], some out) ∧
      out.channel = "cli" ∧ out.chat_id = msg.chat_id := by
  have hsp := splitOnceChar_none_of_not_mem ':' _ h_nocolon
  have hspd : splitOnceChar ':' msg.chat_id.data = none := hsp
  have hchan : (processSystemMessage env store msg).2.2.channel = "cli" := by
    simp [processSystemMessage, hspd]
  have hchat : (processSystemMessage env store msg).2.2.chat_id = msg.chat_id := by
    simp [processSystemMessage, hspd]
  exact ⟨(processSystemMessage env store msg).1, (processSystemMessage env store msg).2.1,
    (processSystemMessage env store msg).2.2,
    by simp only [processMessage, if_pos h_sys], hchan, hchat⟩

/-- C10 witness: chat id `"C123"` (no colon) is replied to on channel
`"cli"`, chat `"C123"`. -/
theorem systemMessage_fallback_cli_witness :
    ∃ key s1 out,
      processMessage envPlain (fun _ => sessEmpty) msgSysNoColon = .ok (key, s1, [], some out) ∧
      out.channel = "cli" ∧ out.chat_id = msgSysNoColon.chat_id :=
  systemMessage_fallback_cli envPlain (fun _ => sessEmpty) msgSysNoColon rfl (by decide)

/-! String lemmas for the round-trip proof. -/

theorem strMk_toList (s : String) : String.mk s.toList = s := rfl

theorem toList_append (a b : String) : (a ++ b).toList = a.toList ++ b.toList := by
  cases a; cases b; rfl

theorem occursIn_singleton (c : Char) : ∀ l : List Char, occursIn [c] l = true ↔ c ∈ l := by
  intro l
  induction l with
  | nil => simp [occursIn, isStartOf]
  | cons d ds ih =>
    have h1 : occursIn [c] (d :: ds) = (isStartOf [c] (d :: ds) || occursIn [c] ds) := rfl
    have h2 : isStartOf [c] (d :: ds) = ((c == d) && true) := rfl
    rw [h1, h2]
    simp only [Bool.and_true, Bool.or_eq_true, beq_iff_eq, ih, List.mem_cons]

theorem splitOnceChar_append (c : Char) (b : List Char) :
    ∀ a : List Char, c ∉ a → splitOnceChar c (a ++ c :: b) = some (a, b) := by
  intro a
  induction a with
  | nil => intro _; simp [splitOnceChar]
  | cons d ds ih =>
    intro h
    have hd : d ≠ c := fun he => h (he ▸ List.mem_cons_self d ds)
    have hds : c ∉ ds := fun hm => h (List.mem_cons_of_mem d hm)
    simp [splitOnceChar, hd, ih hds]

theorem dash_not_in_category (cat : String)
    (h : cat ∈ categoryNames ∨ cat = DEFAULT_CATEGORY) : '-' ∉ cat.toList := by
  rcases h with h | h
  · simp only [categoryNames, TASK_CATEGORIES, List.map, List.mem_cons,
      List.not_mem_nil, or_false] at h
    rcases h with h | h | h | h | h | h | h <;> (subst h; decide)
  · subst h; decide

theorem strListGetD_map_str (l : List String) :
    (List.filterMap (fun x => match x with | Json.str s => some s | _ => none)
      (l.map Json.str)) = l := by
  induction l with
  | nil => rfl
  | cons a as ih => simp [List.filterMap, ih]

/-- C6 counterexample: the round trip does not preserve `category` and
`number` for a task whose id does not parse back to them
(`Task.from_dict` re-derives both from the id and ignores the stored
fields when the id contains a dash). -/
theorem task_roundtrip_cex :
    taskCexC6.category = "app" ∧ taskCexC6.number = 3 ∧
    (Task.from_dict taskCexC6.to_dict 0).category = "task" ∧
    (Task.from_dict taskCexC6.to_dict 0).number = 0 ∧
    (Task.from_dict taskCexC6.to_dict 0).category ≠ taskCexC6.category := by
  refine ⟨rfl, rfl, rfl, rfl, by decide⟩

/-- C6 (amended): for every task whose id is its category, a dash, and
a digit string denoting its number — with the category a known one, as
holds for every task `TaskManager.create_task` produces — the
serialize/deserialize round trip preserves id, category, number,
status, and the requirements list exactly. -/
theorem task_roundtrip_amended (t : Task) (ns : String) (now : Nat)
    (h_id : t.id = t.category ++ "-" ++ ns)
    (h_ns : digitsToNat? ns.toList = some t.number)
    (h_cat : t.category ∈ categoryNames ∨ t.category = DEFAULT_CATEGORY) :
    (Task.from_dict t.to_dict now).id = t.id ∧
    (Task.from_dict t.to_dict now).category = t.category ∧
    (Task.from_dict t.to_dict now).number = t.number ∧
    (Task.from_dict t.to_dict now).status = t.status ∧
    (Task.from_dict t.to_dict now).requirements = t.requirements := by
  have h_idL : t.id.toList = t.category.toList ++ '-' :: ns.toList := by
    rw [h_id, toList_append, toList_append]
    simp
  have hdash := dash_not_in_category t.category h_cat
  have hsplit : splitOnceChar '-' t.id.toList = some (t.category.toList, ns.toList) := by
    rw [h_idL]; exact splitOnceChar_append '-' ns.toList t.category.toList hdash
  have hocc : occursIn ['-'] t.id.toList = true := by
    rw [occursIn_singleton, h_idL]
    simp
  have hne : t.id ≠ "" := by
    intro he
    rw [he] at h_idL
    exact absurd h_idL.symm (by simp)
  have hid : (Task.to_dict t).strGetD "id" "" = t.id := rfl
  have hstatus : (Task.to_dict t).strGetD "status" "drafting" = t.status := rfl
  have hreq : (Task.to_dict t).strListGetD "requirements" = t.requirements := by
    show (List.filterMap _ (t.requirements.map Json.str)) = t.requirements
    exact strListGetD_map_str t.requirements
  have hcond : ((Task.to_dict t).strGetD "id" "" ≠ "" ∧
      occursIn ['-'] ((Task.to_dict t).strGetD "id" "").toList = true) := by
    rw [hid]; exact ⟨hne, hocc⟩
  have hcre : (Task.to_dict t).objGet "created_at" = some (.num (Int.ofNat t.created_at)) := rfl
  have hupd : (Task.to_dict t).objGet "updated_at" = some (.num (Int.ofNat t.updated_at)) := rfl
  simp only [Task.from_dict, hid, hstatus, hreq]
  rw [if_pos ⟨hne, hocc⟩, hsplit]
  simp only [strMk_toList]
  rw [if_pos h_cat, h_ns]
  rw [hcre, hupd]
  exact ⟨rfl, rfl, rfl, rfl, rfl⟩

/-- C6 witness: the amended round trip at the concrete task `"app-2"`. -/
theorem task_roundtrip_amended_witness :
    (Task.from_dict taskApp2.to_dict 0).id = taskApp2.id ∧
    (Task.from_dict taskApp2.to_dict 0).category = taskApp2.category ∧
    (Task.from_dict taskApp2.to_dict 0).number = taskApp2.number ∧
    (Task.from_dict taskApp2.to_dict 0).status = taskApp2.status ∧
    (Task.from_dict taskApp2.to_dict 0).requirements = taskApp2.requirements :=
  task_roundtrip_amended taskApp2 "2" 0 rfl (by decide) (by left; decide)

/-! Association-list and counter lemmas for the numbering claim. -/

theorem lookupA_setAssoc_self {β : Type} (l : List (String × β)) (k : String) (v : β) :
    lookupA (setAssoc l k v) k = some v := by
  induction l with
  | nil => simp [setAssoc, lookupA]
  | cons p l ih =>
    obtain ⟨k', v'⟩ := p
    by_cases h : k' = k
    · simp [setAssoc, h, lookupA]
    · simp [setAssoc, h, lookupA, ih]

theorem lookupA_setAssoc_other {β : Type} (l : List (String × β)) (k k' : String) (v : β)
    (h : k ≠ k') : lookupA (setAssoc l k v) k' = lookupA l k' := by
  induction l with
  | nil => simp [setAssoc, lookupA, h]
  | cons p l ih =>
    obtain ⟨a, b⟩ := p
    by_cases ha : a = k
    · subst ha; simp [setAssoc, lookupA, h]
    · simp [setAssoc, ha, lookupA, ih]

theorem setAssoc_fresh {β : Type} (k : String) (v : β) :
    ∀ l : List (String × β), k ∉ l.map Prod.fst → setAssoc l k v = l ++ [(k, v)] := by
  intro l
  induction l with
  | nil => intro _; rfl
  | cons p l ih =>
    intro h
    obtain ⟨a, b⟩ := p
    simp only [List.map_cons, List.mem_cons] at h
    push_neg at h
    obtain ⟨h1, h2⟩ := h
    have hne : a ≠ k := fun hh => h1 hh.symm
    simp [setAssoc, hne, ih h2]

theorem foldl_max_no_match (c : String) :
    ∀ (ts : List (String × Task)) (acc : Nat),
      (∀ p ∈ ts, p.2.category ≠ c) →
      ts.foldl (fun m p => if p.2.category = c then max m p.2.number else m) acc = acc := by
  intro ts
  induction ts with
  | nil => intro acc _; rfl
  | cons p ts ih =>
    intro acc h
    have hp : p.2.category ≠ c := h p (List.mem_cons_self p ts)
    simp only [List.foldl_cons, if_neg hp]
    exact ih acc (fun q hq => h q (List.mem_cons_of_mem p hq))

theorem maxNumberOf_no_match (ts : List (String × Task)) (c : String)
    (h : ∀ p ∈ ts, p.2.category ≠ c) : maxNumberOf ts c = 0 :=
  foldl_max_no_match c ts 0 h

theorem maxNumberOf_append (ts : List (String × Task)) (k : String) (t : Task) (c : String) :
    maxNumberOf (ts ++ [(k, t)]) c =
      if t.category = c then max (maxNumberOf ts c) t.number else maxNumberOf ts c := by
  unfold maxNumberOf
  rw [List.foldl_append]
  rfl

theorem fromDictStep_tasks (now : Nat) (m : TaskManager) (e : String × Json)
    (hfresh : e.1 ∉ m.tasks.map Prod.fst) :
    (fromDictStep now m e).tasks = m.tasks ++ [(e.1, Task.from_dict e.2 now)] := by
  simp only [fromDictStep]
  exact setAssoc_fresh e.1 _ m.tasks hfresh

theorem fromDictStep_ok (now : Nat) (m : TaskManager) (e : String × Json)
    (hok : countersOk m) (hfresh : e.1 ∉ m.tasks.map Prod.fst) :
    countersOk (fromDictStep now m e) := by
  have htasks := fromDictStep_tasks now m e hfresh
  set t := Task.from_dict e.2 now with ht
  intro c
  have hmax : maxNumberOf (fromDictStep now m e).tasks c =
      if t.category = c then max (maxNumberOf m.tasks c) t.number else maxNumberOf m.tasks c := by
    rw [htasks, maxNumberOf_append]
  cases hl : lookupA m.counters t.category with
  | some v =>
    have hv : v = maxNumberOf m.tasks t.category := (hok t.category).1 v hl
    have hcs : (fromDictStep now m e).counters =
        (if t.number ≥ v then setAssoc m.counters t.category t.number else m.counters) := by
      simp only [fromDictStep, ← ht, hl, Option.isSome_some, if_true, Option.getD_some]
    by_cases hge : t.number ≥ v
    · rw [if_pos hge] at hcs
      by_cases hc : c = t.category
      · subst hc
        constructor
        · intro w hw
          rw [hcs, lookupA_setAssoc_self] at hw
          rw [hmax, if_pos rfl, ← hv]
          cases hw
          exact (Nat.max_eq_right hge).symm
        · intro hn
          rw [hcs, lookupA_setAssoc_self] at hn
          exact absurd hn (by simp)
      · have hco : t.category ≠ c := fun hh => hc hh.symm
        have hlook : lookupA (fromDictStep now m e).counters c = lookupA m.counters c := by
          rw [hcs]; exact lookupA_setAssoc_other _ _ _ _ hco
        constructor
        · intro w hw
          rw [hlook] at hw
          rw [hmax, if_neg hco]
          exact (hok c).1 w hw
        · intro hn
          rw [hlook] at hn
          intro p hp
          rw [htasks] at hp
          rcases List.mem_append.mp hp with h1 | h2
          · exact (hok c).2 hn p h1
          · simp only [List.mem_singleton] at h2
            subst h2
            exact hco
    · rw [if_neg hge] at hcs
      have hlt : t.number < v := Nat.lt_of_not_le hge
      by_cases hc : c = t.category
      · subst hc
        constructor
        · intro w hw
          rw [hcs, hl] at hw
          cases hw
          rw [hmax, if_pos rfl, ← hv]
          exact (Nat.max_eq_left (Nat.le_of_lt hlt)).symm
        · intro hn
          rw [hcs, hl] at hn
          exact absurd hn (by simp)
      · have hco : t.category ≠ c := fun hh => hc hh.symm
        constructor
        · intro w hw
          rw [hcs] at hw
          rw [hmax, if_neg hco]
          exact (hok c).1 w hw
        · intro hn
          rw [hcs] at hn
          intro p hp
          rw [htasks] at hp
          rcases List.mem_append.mp hp with h1 | h2
          · exact (hok c).2 hn p h1
          · simp only [List.mem_singleton] at h2
            subst h2
            exact hco
  | none =>
    have hnone := (hok t.category).2 hl
    have hmax0 : maxNumberOf m.tasks t.category = 0 := maxNumberOf_no_match _ _ hnone
    have hcs : (fromDictStep now m e).counters =
        setAssoc (setAssoc m.counters t.category 0) t.category t.number := by
      simp only [fromDictStep, ← ht, hl, Option.isSome_none, Bool.false_eq_true, if_false]
      rw [if_pos]
      rw [lookupA_setAssoc_self]
      exact Nat.zero_le _
    by_cases hc : c = t.category
    · subst hc
      constructor
      · intro w hw
        rw [hcs, lookupA_setAssoc_self] at hw
        cases hw
        rw [hmax, if_pos rfl, hmax0]
        exact (Nat.max_eq_right (Nat.zero_le _)).symm
      · intro hn
        rw [hcs, lookupA_setAssoc_self] at hn
        exact absurd hn (by simp)
    · have hco : t.category ≠ c := fun hh => hc hh.symm
      have hlook : lookupA (fromDictStep now m e).counters c = lookupA m.counters c := by
        rw [hcs, lookupA_setAssoc_other _ _ _ _ hco, lookupA_setAssoc_other _ _ _ _ hco]
      constructor
      · intro w hw
        rw [hlook] at hw
        rw [hmax, if_neg hco]
        exact (hok c).1 w hw
      · intro hn
        rw [hlook] at hn
        intro p hp
        rw [htasks] at hp
        rcases List.mem_append.mp hp with h1 | h2
        · exact (hok c).2 hn p h1
        · simp only [List.mem_singleton] at h2
          subst h2
          exact hco

theorem fromDict_fold_ok (now : Nat) :
    ∀ (es : List (String × Json)) (m : TaskManager),
      countersOk m → (es.map Prod.fst).Nodup →
      (∀ e ∈ es, e.1 ∉ m.tasks.map Prod.fst) →
      countersOk (es.foldl (fromDictStep now) m) := by
  intro es
  induction es with
  | nil => intro m hok _ _; exact hok
  | cons e es ih =>
    intro m hok hnodup hfresh
    simp only [List.foldl_cons]
    have hfe : e.1 ∉ m.tasks.map Prod.fst := hfresh e (List.mem_cons_self e es)
    have hok1 := fromDictStep_ok now m e hok hfe
    have htasks := fromDictStep_tasks now m e hfe
    simp only [List.map_cons, List.nodup_cons] at hnodup
    refine ih (fromDictStep now m e) hok1 hnodup.2 ?_
    intro q hq
    rw [htasks]
    simp only [List.map_append, List.map_cons, List.map_nil, List.mem_append,
      List.mem_singleton]
    rintro (h1 | h2)
    · exact hfresh q (List.mem_cons_of_mem e hq) h1
    · exact hnodup.1 (h2 ▸ (List.mem_map.mpr ⟨q, hq, rfl⟩))

theorem from_dict_countersOk (data : Json) (now : Nat)
    (hnodup : ((jsonTaskEntries data).map Prod.fst).Nodup) :
    countersOk (TaskManager.from_dict data now) := by
  refine fromDict_fold_ok now (jsonTaskEntries data) _ ?_ hnodup ?_
  · intro c
    constructor
    · intro v hv; exact absurd hv (by simp [lookupA])
    · intro _ p hp; exact absurd hp (by simp)
  · intro e _; simp

theorem getNextNumber_of_counter (tm : TaskManager) (cat : String) (v : Nat)
    (h : lookupA tm.counters cat = some v) : (tm.getNextNumber cat).1 = v + 1 := by
  simp [TaskManager.getNextNumber, h]

/-- C5: per-category task numbering.  (i) On a fresh manager the first
task of any category gets number 1.  (ii) Two tasks created in sequence
that resolve to the same category get strictly increasing numbers.
(iii) After deserializing a manager (with well-formed, duplicate-free
task keys, as Python dicts guarantee), the next number assigned in a
category with at least one loaded task is one more than the maximum
number observed among that category's loaded tasks. -/
theorem task_numbering_correct :
    (∀ key title desc ps copt now,
      ((tmEmpty key).create_task title desc ps copt now).1.number = 1) ∧
    (∀ (tm : TaskManager) ti1 de1 ps1 c1 n1 ti2 de2 ps2 c2 n2,
      ((tm.create_task ti1 de1 ps1 c1 n1).2.create_task ti2 de2 ps2 c2 n2).1.category =
        (tm.create_task ti1 de1 ps1 c1 n1).1.category →
      (tm.create_task ti1 de1 ps1 c1 n1).1.number <
        ((tm.create_task ti1 de1 ps1 c1 n1).2.create_task ti2 de2 ps2 c2 n2).1.number) ∧
    (∀ (data : Json) (now : Nat) (cat : String),
      ((jsonTaskEntries data).map Prod.fst).Nodup →
      (∃ p ∈ (TaskManager.from_dict data now).tasks, p.2.category = cat) →
      ((TaskManager.from_dict data now).getNextNumber cat).1 =
        maxNumberOf (TaskManager.from_dict data now).tasks cat + 1) := by
  have hnum : ∀ (tm : TaskManager) title desc ps copt now,
      (tm.create_task title desc ps copt now).1.number =
        (tm.getNextNumber (tm.create_task title desc ps copt now).1.category).1 := by
    intro tm title desc ps copt now
    rfl
  have hcounter : ∀ (tm : TaskManager) title desc ps copt now,
      lookupA (tm.create_task title desc ps copt now).2.counters
        (tm.create_task title desc ps copt now).1.category =
      some (tm.create_task title desc ps copt now).1.number := by
    intro tm title desc ps copt now
    show lookupA (setAssoc _ _ _) _ = _
    simp only [TaskManager.create_task, TaskManager.getNextNumber]
    exact lookupA_setAssoc_self _ _ _
  refine ⟨?_, ?_, ?_⟩
  · intro key title desc ps copt now
    rw [hnum]
    generalize ((tmEmpty key).create_task title desc ps copt now).1.category = cat
    show (lookupA (setAssoc _ _ _) _).getD 0 + 1 = 1
    simp [tmEmpty, TaskManager.getNextNumber, lookupA, lookupA_setAssoc_self]
  · intro tm ti1 de1 ps1 c1 n1 ti2 de2 ps2 c2 n2 hcat
    have h2 := hnum ((tm.create_task ti1 de1 ps1 c1 n1).2) ti2 de2 ps2 c2 n2
    rw [h2, hcat, getNextNumber_of_counter _ _ _ (hcounter tm ti1 de1 ps1 c1 n1)]
    exact Nat.lt_succ_self _
  · intro data now cat hnodup hex
    have hok := from_dict_countersOk data now hnodup
    obtain ⟨p, hp, hpc⟩ := hex
    cases hl : lookupA (TaskManager.from_dict data now).counters cat with
    | none => exact absurd hpc ((hok cat).2 hl p hp)
    | some v =>
      rw [getNextNumber_of_counter _ _ _ hl, (hok cat).1 v hl]

/-- C5 witness: the three numbering properties at concrete inputs
(first task `task-1` on a fresh manager; numbers 1 < 2 for two
sequential creations sharing a category; reloading `app-1`/`app-3`
makes the next app number 3 + 1). -/
theorem task_numbering_correct_witness :
    ((tmEmpty "k").create_task "t" "d" (.obj []) none 0).1.number = 1 ∧
    (((tmEmpty "k").create_task "t" "build a web site" (.obj []) none 0).2.create_task
        "t2" "another web site" (.obj []) none 1).1.category =
      ((tmEmpty "k").create_task "t" "build a web site" (.obj []) none 0).1.category ∧
    ((tmEmpty "k").create_task "t" "build a web site" (.obj []) none 0).1.number <
      (((tmEmpty "k").create_task "t" "build a web site" (.obj []) none 0).2.create_task
        "t2" "another web site" (.obj []) none 1).1.number ∧
    ((TaskManager.from_dict dataW 0).getNextNumber "app").1 =
      maxNumberOf (TaskManager.from_dict dataW 0).tasks "app" + 1 := by
  refine ⟨task_numbering_correct.1 "k" "t" "d" (.obj []) none 0, ?_, ?_, ?_⟩
  · decide
  · exact task_numbering_correct.2.1 (tmEmpty "k") "t" "build a web site" (.obj []) none 0
      "t2" "another web site" (.obj []) none 1 (by decide)
  · exact task_numbering_correct.2.2 dataW 0 "app" (by decide)
      ⟨_, List.mem_cons_self _ _, by decide⟩

/-! Lemmas about `TaskManager.modify`. -/

theorem lookupA_cons {β : Type} (k : String) (v : β) (l : List (String × β)) (key : String) :
    lookupA ((k, v) :: l) key = if k = key then some v else lookupA l key := rfl

theorem lookupA_mapIf (id : String) (f : Task → Task) :
    ∀ l : List (String × Task),
      lookupA (l.map (fun p => if p.1 = id then (p.1, f p.2) else p)) id =
        (lookupA l id).map f := by
  intro l
  induction l with
  | nil => rfl
  | cons p l ih =>
    obtain ⟨a, b⟩ := p
    simp only [List.map_cons]
    by_cases h : a = id
    · rw [if_pos (show (a, b).1 = id from h)]
      rw [lookupA_cons, lookupA_cons, if_pos h, if_pos h]
      rfl
    · rw [if_neg (show ¬(a, b).1 = id from h)]
      rw [lookupA_cons, lookupA_cons, if_neg h, if_neg h]
      exact ih

theorem lookupA_mapIf_other (id k : String) (f : Task → Task) (hk : k ≠ id) :
    ∀ l : List (String × Task),
      lookupA (l.map (fun p => if p.1 = id then (p.1, f p.2) else p)) k = lookupA l k := by
  intro l
  induction l with
  | nil => rfl
  | cons p l ih =>
    obtain ⟨a, b⟩ := p
    simp only [List.map_cons]
    by_cases h : a = id
    · rw [if_pos (show (a, b).1 = id from h)]
      rw [lookupA_cons, lookupA_cons]
      have hak : a ≠ k := fun hh => hk (by rw [← hh]; exact h)
      rw [if_neg hak, if_neg hak]
      exact ih
    · rw [if_neg (show ¬(a, b).1 = id from h)]
      rw [lookupA_cons, lookupA_cons]
      by_cases h2 : a = k
      · rw [if_pos h2, if_pos h2]
      · rw [if_neg h2, if_neg h2]
        exact ih

theorem get_task_modify_self (tm : TaskManager) (id : String) (f : Task → Task) :
    (tm.modify id f).get_task id = (tm.get_task id).map f :=
  lookupA_mapIf id f tm.tasks

theorem get_task_modify_other (tm : TaskManager) (id k : String) (f : Task → Task)
    (hk : k ≠ id) : (tm.modify id f).get_task k = tm.get_task k :=
  lookupA_mapIf_other id k f hk tm.tasks

theorem approval_not_task_prefix :
    ∀ w ∈ approvalWords, pyStartsWith w "/task" = false := by decide

theorem rejection_not_task_prefix :
    ∀ w ∈ rejectionWords, pyStartsWith w "/task" = false := by decide

theorem rejection_not_approval :
    ∀ w ∈ rejectionWords, w ∉ approvalWords := by decide

theorem processNonSystem_approval_core {M : Type} (env : Env M) (msg : InboundMessage)
    (s : Session) (tid : String) (task : Task)
    (h_cli : msg.channel ≠ "cli") (h_active : s.active_task_id = some tid)
    (h_tid : tid ≠ "") (h_task : s.tasks.get_task tid = some task)
    (h_kw : pyLower (pyStrip msg.content) ∈ approvalWords) :
    processNonSystem env msg s = .ok (approvalTransition env msg s task) := by
  have h1 : pyStartsWith (pyLower (pyStrip msg.content)) "/task" = false :=
    approval_not_task_prefix _ h_kw
  have h2 : optTruthy s.active_task_id = true := by
    rw [h_active]; simpa [optTruthy] using h_tid
  have h2x : optTruthy (some tid) = true := by simpa [optTruthy] using h_tid
  have href : handleTaskRefinement env msg s = .ok (approvalTransition env msg s task) := by
    simp only [handleTaskRefinement, h_active, h2x, Option.getD_some, h_task, if_true,
      if_pos h_kw]
  simp only [processNonSystem]
  rw [if_neg (by simp [h1]), if_pos ⟨h2, h_cli⟩, href]
  rfl

theorem processNonSystem_cancel_core {M : Type} (env : Env M) (msg : InboundMessage)
    (s : Session) (tid : String) (task : Task)
    (h_cli : msg.channel ≠ "cli") (h_active : s.active_task_id = some tid)
    (h_tid : tid ≠ "") (h_task : s.tasks.get_task tid = some task)
    (h_kw : pyLower (pyStrip msg.content) ∈ rejectionWords) :
    processNonSystem env msg s =
      .ok ({ s with active_task_id := none, tasks := s.tasks.set_task_status task.id "cancelled" env.now }, [], some (mkOut msg "❌ 任务已取消")) := by
  have h1 : pyStartsWith (pyLower (pyStrip msg.content)) "/task" = false :=
    rejection_not_task_prefix _ h_kw
  have hka : pyLower (pyStrip msg.content) ∉ approvalWords := rejection_not_approval _ h_kw
  have h2 : optTruthy s.active_task_id = true := by
    rw [h_active]; simpa [optTruthy] using h_tid
  have h2x : optTruthy (some tid) = true := by simpa [optTruthy] using h_tid
  have href : handleTaskRefinement env msg s =
      .ok ({ s with active_task_id := none, tasks := s.tasks.set_task_status task.id "cancelled" env.now }, [], some (mkOut msg "❌ 任务已取消")) := by
    simp only [handleTaskRefinement, h_active, h2x, Option.getD_some, h_task, if_true,
      if_neg hka, if_pos h_kw]
  simp only [processNonSystem]
  rw [if_neg (by simp [h1]), if_pos ⟨h2, h_cli⟩, href]

/-- C4: a non-CLI message whose stripped lower-cased content is an
approval keyword, on a session with an active (existing) task, makes
the dispatch set that task's status to `"executing"`, clear
`active_task_id`, and publish exactly one inbound message with channel
`"system"` and chat id `"{channel}:{chat_id}"` of the approving
message. -/
theorem approval_executes_task {M : Type} (env : Env M) (msg : InboundMessage) (s : Session)
    (tid : String) (task : Task)
    (h_cli : msg.channel ≠ "cli")
    (h_active : s.active_task_id = some tid) (h_tid : tid ≠ "")
    (h_task : s.tasks.get_task tid = some task) (h_id : task.id = tid)
    (h_kw : pyLower (pyStrip msg.content) ∈ approvalWords) :
    ∃ s' pubs rep,
      processNonSystem env msg s = .ok (s', pubs, rep) ∧
      (∃ t', s'.tasks.get_task tid = some t' ∧ t'.status = "executing") ∧
      s'.active_task_id = none ∧
      (∃ p, pubs = [p] ∧ p.channel = "system" ∧
        p.chat_id = msg.channel ++ ":" ++ msg.chat_id) := by
  subst h_id
  have happ : approvalTransition env msg s task =
      ({ s with active_task_id := none, tasks := (s.tasks.approve_task task.id env.now).modify task.id (fun t => { t with status := "executing" }) }, [execSysMsg msg task], some (mkOut msg ("✅ 任务已批准\n\n任务ID: `" ++ taskIdUOf task ++ "`\n正在后台执行...\n\n发送 `status " ++ taskIdUOf task ++ "` 查询进度"))) := rfl
  have hproc := processNonSystem_approval_core env msg s task.id task h_cli h_active h_tid
    h_task h_kw
  rw [happ] at hproc
  have hlook : ((s.tasks.approve_task task.id env.now).modify task.id
      (fun t => { t with status := "executing" })).get_task task.id =
      some { task with status := "executing", updated_at := env.now } := by
    rw [get_task_modify_self, TaskManager.approve_task, get_task_modify_self, h_task]
    rfl
  exact ⟨_, _, _, hproc, ⟨_, hlook, rfl⟩, rfl, ⟨_, rfl, rfl, rfl⟩⟩

/-- C4 witness: on a session with active task `app-1`, the message
`"yes"` from telegram chat 42 moves the task to executing, clears the
active pointer, and publishes the system message addressed
`"telegram:42"`. -/
theorem approval_executes_task_witness :
    ∃ s' pubs rep,
      processNonSystem envPlain msgYes sessActive = .ok (s', pubs, rep) ∧
      (∃ t', s'.tasks.get_task "app-1" = some t' ∧ t'.status = "executing") ∧
      s'.active_task_id = none ∧
      (∃ p, pubs = [p] ∧ p.channel = "system" ∧
        p.chat_id = msgYes.channel ++ ":" ++ msgYes.chat_id) :=
  approval_executes_task envPlain msgYes sessActive "app-1" taskApp1
    (by decide) rfl (by decide) rfl rfl (by decide)

/-! Lemmas showing no user-input dispatch path assigns a terminal
completed/failed status. -/

theorem noNewDone_refl (tm : TaskManager) : noNewDone tm tm :=
  fun _ t' hl _ => ⟨t', hl, rfl⟩

theorem noNewDone_of_eq {pre post : TaskManager} (h : post.tasks = pre.tasks) :
    noNewDone pre post := by
  intro tid t' hl hd
  refine ⟨t', ?_, rfl⟩
  show lookupA pre.tasks tid = some t'
  rw [← h]
  exact hl

theorem noNewDone_trans {a b c : TaskManager} (h1 : noNewDone a b) (h2 : noNewDone b c) :
    noNewDone a c := by
  intro tid t' hl hd
  obtain ⟨t, hbl, hst⟩ := h2 tid t' hl hd
  obtain ⟨t0, hal, hst0⟩ := h1 tid t hbl (by rw [hst]; exact hd)
  exact ⟨t0, hal, hst0.trans hst⟩

theorem noNewDone_modify (tm : TaskManager) (id : String) (f : Task → Task)
    (hf : ∀ t, (f t).status = t.status ∨
      ((f t).status ≠ "completed" ∧ (f t).status ≠ "failed")) :
    noNewDone tm (tm.modify id f) := by
  intro tid t' hl hdone
  by_cases h : tid = id
  · subst h
    rw [get_task_modify_self] at hl
    cases horig : tm.get_task tid with
    | none => rw [horig] at hl; exact absurd hl (by simp)
    | some t =>
      rw [horig] at hl
      have ht' : f t = t' := by simpa using hl
      subst ht'
      rcases hf t with hsame | ⟨hnc, hnf⟩
      · exact ⟨t, rfl, hsame.symm⟩
      · rcases hdone with hd | hd
        · exact absurd hd hnc
        · exact absurd hd hnf
  · rw [get_task_modify_other _ _ _ _ h] at hl
    exact ⟨t', hl, rfl⟩

theorem noNewDone_of_tasks_setAssoc (pre post : TaskManager) (k : String) (t : Task)
    (hpost : post.tasks = setAssoc pre.tasks k t)
    (ht : t.status ≠ "completed" ∧ t.status ≠ "failed") :
    noNewDone pre post := by
  intro tid t' hl hd
  have hl' : lookupA (setAssoc pre.tasks k t) tid = some t' := by
    rw [← hpost]; exact hl
  by_cases h : tid = k
  · subst h
    rw [lookupA_setAssoc_self] at hl'
    cases hl'
    rcases hd with hd | hd
    · exact absurd hd ht.1
    · exact absurd hd ht.2
  · rw [lookupA_setAssoc_other _ _ _ _ (fun hh => h hh.symm)] at hl'
    exact ⟨t', hl', rfl⟩

theorem lookupA_delAssoc_other {β : Type} (k tid : String) (h : tid ≠ k) :
    ∀ l : List (String × β), lookupA (delAssoc l k) tid = lookupA l tid := by
  intro l
  induction l with
  | nil => rfl
  | cons p l ih =>
    obtain ⟨a, b⟩ := p
    simp only [delAssoc]
    by_cases ha : a = k
    · rw [if_pos ha, lookupA_cons, if_neg (show ¬ a = tid from fun hh => h (hh ▸ ha))]
      exact ih
    · rw [if_neg ha, lookupA_cons, lookupA_cons]
      by_cases h2 : a = tid
      · rw [if_pos h2, if_pos h2]
      · rw [if_neg h2, if_neg h2]
        exact ih

theorem lookupA_delAssoc_self {β : Type} (k : String) :
    ∀ l : List (String × β), lookupA (delAssoc l k) k = none := by
  intro l
  induction l with
  | nil => rfl
  | cons p l ih =>
    obtain ⟨a, b⟩ := p
    simp only [delAssoc]
    by_cases ha : a = k
    · rw [if_pos ha]; exact ih
    · rw [if_neg ha, lookupA_cons, if_neg ha]; exact ih

theorem noNewDone_delete (tm : TaskManager) (id : String) :
    noNewDone tm (tm.delete_task id) := by
  intro tid t' hl hd
  by_cases h : tid = id
  · subst h
    have hx : lookupA (delAssoc tm.tasks tid) tid = some t' := hl
    rw [lookupA_delAssoc_self] at hx
    exact absurd hx (by simp)
  · have hx : lookupA (delAssoc tm.tasks id) tid = some t' := hl
    rw [lookupA_delAssoc_other id tid h] at hx
    exact ⟨t', hx, rfl⟩

theorem add_refinement_status (t : Task) (u : String) (b a : Option String) (n : Nat) :
    (t.add_refinement u b a n).status = t.status := rfl

theorem noNewDone_modify_status (tm : TaskManager) (id : String) (f : Task → Task)
    (st : String) (hst : ∀ t, (f t).status = st) (h1 : st ≠ "completed")
    (h2 : st ≠ "failed") : noNewDone tm (tm.modify id f) :=
  noNewDone_modify tm id f
    (fun t => Or.inr ⟨by rw [hst t]; exact h1, by rw [hst t]; exact h2⟩)

theorem add_refinement_noNewDone (tm : TaskManager) (id user : String)
    (bot act : Option String) (now : Nat) :
    noNewDone tm (tm.add_refinement id user bot act now) := by
  apply noNewDone_modify
  intro t
  simp only [add_refinement_status]
  by_cases h : t.status = "drafting"
  · rw [if_pos h]
    refine Or.inr ⟨?_, ?_⟩
    · show ("refining" : String) ≠ "completed"
      decide
    · show ("refining" : String) ≠ "failed"
      decide
  · rw [if_neg h]
    exact Or.inl rfl

theorem approvalTransition_noNewDone {M : Type} (env : Env M) (msg : InboundMessage)
    (s : Session) (task : Task) :
    noNewDone s.tasks (approvalTransition env msg s task).1.tasks := by
  refine noNewDone_trans (b := s.tasks.approve_task task.id env.now) ?_ ?_
  · exact noNewDone_modify_status _ _ _ "approved" (fun t => rfl) (by decide) (by decide)
  · exact noNewDone_modify_status _ _ _ "executing" (fun t => rfl) (by decide) (by decide)

theorem processRefinement_noNewDone {M : Type} (env : Env M) (msg : InboundMessage)
    (s : Session) (task : Task) :
    noNewDone s.tasks (processRefinement env msg s task).1.tasks := by
  cases hcl : env.classifyRefinement msg.content task with
  | error e =>
    simp only [processRefinement, hcl]
    exact add_refinement_noNewDone _ _ _ _ _ _
  | ok r =>
    by_cases hap : r.is_approval = true
    · simp only [processRefinement, hcl, if_pos hap]
      exact approvalTransition_noNewDone env msg s task
    · simp only [processRefinement, hcl, if_neg hap]
      refine noNewDone_trans (b := s.tasks.add_refinement task.id msg.content
        (some r.response) none env.now) (add_refinement_noNewDone _ _ _ _ _ _) ?_
      refine noNewDone_trans
        (b := if !r.new_requirements.isEmpty then
          (s.tasks.add_refinement task.id msg.content (some r.response) none env.now).modify
            task.id (fun t => t.update_requirements r.new_requirements env.now)
        else s.tasks.add_refinement task.id msg.content (some r.response) none env.now) ?_ ?_
      · by_cases hc : (!r.new_requirements.isEmpty) = true
        · rw [if_pos hc]
          exact noNewDone_modify _ _ _ (fun t => Or.inl rfl)
        · rw [if_neg hc]
          exact noNewDone_refl _
      · by_cases hc : r.updates ≠ ""
        · rw [if_pos hc]
          exact noNewDone_modify _ _ _ (fun t => Or.inl rfl)
        · rw [if_neg hc]
          exact noNewDone_refl _

theorem refByIdBranch_noNewDone {M : Type} (env : Env M) (msg : InboundMessage)
    (s : Session) (rtid refc : String) :
    noNewDone s.tasks (refByIdBranch env msg s rtid refc).1.tasks :=
  noNewDone_modify_status _ _ _ "refining" (fun t => rfl) (by decide) (by decide)

theorem createTaskBranch_noNewDone {M : Type} (env : Env M) (msg : InboundMessage)
    (s : Session) (d : DevAnalysis) :
    noNewDone s.tasks (createTaskBranch env msg s d).1.tasks := by
  have h1 : noNewDone s.tasks
      (s.tasks.create_task (extractTaskTitle msg.content) msg.content
        (devTaskJson msg.content d) none env.now).2 :=
    noNewDone_of_tasks_setAssoc _ _ _ _ rfl
      ⟨by show ("drafting" : String) ≠ "completed"; decide,
       by show ("drafting" : String) ≠ "failed"; decide⟩
  have heq : (createTaskBranch env msg s d).1.tasks =
      ((if !d.requirements.isEmpty then
        (s.tasks.create_task (extractTaskTitle msg.content) msg.content
          (devTaskJson msg.content d) none env.now).2.modify
          (s.tasks.create_task (extractTaskTitle msg.content) msg.content
            (devTaskJson msg.content d) none env.now).1.id
          (fun t => t.update_requirements d.requirements env.now)
      else (s.tasks.create_task (extractTaskTitle msg.content) msg.content
          (devTaskJson msg.content d) none env.now).2).modify
        (s.tasks.create_task (extractTaskTitle msg.content) msg.content
          (devTaskJson msg.content d) none env.now).1.id
        (fun t => { t with status := "refining" })) := rfl
  rw [heq]
  refine noNewDone_trans (noNewDone_trans h1 ?_)
    (noNewDone_modify_status _ _ _ "refining" (fun t => rfl) (by decide) (by decide))
  by_cases hc : (!d.requirements.isEmpty) = true
  · rw [if_pos hc]
    exact noNewDone_modify _ _ _ (fun t => Or.inl rfl)
  · rw [if_neg hc]
    exact noNewDone_refl _

theorem handleTaskCommand_noNewDone (msg : InboundMessage) (s : Session) (t0 : Option Task)
    (c : Option String) :
    noNewDone s.tasks (handleTaskCommand msg s t0 c).1.tasks := by
  simp only [handleTaskCommand]
  split_ifs <;>
    first
      | exact noNewDone_refl _
      | (split <;> exact noNewDone_refl _)
      | exact noNewDone_delete _ _

theorem legacyTaskApproval_noNewDone {M : Type} (env : Env M) (msg : InboundMessage)
    (s : Session) :
    noNewDone s.tasks (legacyTaskApproval env msg s).1.tasks := by
  simp only [legacyTaskApproval]
  split_ifs <;> exact noNewDone_refl _

theorem normalTurn_noNewDone {M : Type} (env : Env M) (msg : InboundMessage) (s : Session) :
    noNewDone s.tasks (normalTurn env msg s).1.tasks :=
  noNewDone_refl _

theorem dispatchRest_noNewDone {M : Type} (env : Env M) (msg : InboundMessage) (s : Session) :
    noNewDone s.tasks (dispatchRest env msg s).1.tasks := by
  simp only [dispatchRest]
  split_ifs <;>
    first
      | exact legacyTaskApproval_noNewDone env msg s
      | (cases taskRefTarget s (pyStrip msg.content) with
         | some triple =>
            obtain ⟨t, rtid, refc⟩ := triple
            exact refByIdBranch_noNewDone env msg s rtid refc
         | none =>
            cases (tasksByCreation s.tasks).find?
                (matchesContent (pyLower (pyStrip msg.content))) with
            | some t =>
              first
                | exact noNewDone_refl _
                | (cases env.analyzeDev msg.content with
                   | some d =>
                      first
                        | exact createTaskBranch_noNewDone env msg s d
                        | exact normalTurn_noNewDone env msg s
                   | none => exact normalTurn_noNewDone env msg s)
            | none =>
              cases env.analyzeDev msg.content with
              | some d =>
                first
                  | exact createTaskBranch_noNewDone env msg s d
                  | exact normalTurn_noNewDone env msg s
              | none => exact normalTurn_noNewDone env msg s)

theorem handleTaskRefinement_noNewDone {M : Type} (env : Env M) (msg : InboundMessage)
    (s s1 : Session) (pubs : List InboundMessage) (orep : Option OutboundMessage)
    (h : handleTaskRefinement env msg s = .ok (s1, pubs, orep)) :
    noNewDone s.tasks s1.tasks := by
  simp only [handleTaskRefinement] at h
  cases hot : (if optTruthy s.active_task_id then
      s.tasks.get_task (s.active_task_id.getD "") else none) with
  | none =>
    simp only [hot] at h
    have he := Except.ok.inj h
    rw [show s1 = ({ s with active_task_id := none } : Session) from (congrArg Prod.fst he).symm]
    exact noNewDone_refl _
  | some task =>
    simp only [hot] at h
    split_ifs at h with ha hr ht
    · have he := Except.ok.inj h
      rw [show s1 = (approvalTransition env msg s task).1 from (congrArg Prod.fst he).symm]
      exact approvalTransition_noNewDone env msg s task
    · have he := Except.ok.inj h
      rw [show s1 = ({ s with active_task_id := none, tasks := s.tasks.set_task_status task.id "cancelled" env.now } : Session) from (congrArg Prod.fst he).symm]
      exact noNewDone_modify_status _ _ _ "cancelled" (fun t => rfl) (by decide) (by decide)
    · have he := Except.ok.inj h
      rw [show s1 = (processRefinement env msg s task).1 from (congrArg Prod.fst he).symm]
      exact processRefinement_noNewDone env msg s task

theorem processNonSystem_noNewDone {M : Type} (env : Env M) (msg : InboundMessage)
    (s s' : Session) (pubs : List InboundMessage) (rep : Option OutboundMessage)
    (h : processNonSystem env msg s = .ok (s', pubs, rep)) :
    noNewDone s.tasks s'.tasks := by
  simp only [processNonSystem] at h
  split_ifs at h with h1 h2
  · have he := Except.ok.inj h
    rw [show s' = (handleTaskCommand msg s none none).1 from (congrArg Prod.fst he).symm]
    exact handleTaskCommand_noNewDone msg s none none
  · cases hr : handleTaskRefinement env msg s with
    | error e =>
      rw [hr] at h
      exact absurd h (by simp)
    | ok trip =>
      obtain ⟨sa, pa, ra⟩ := trip
      rw [hr] at h
      cases ra with
      | some rep1 =>
        have he := Except.ok.inj h
        rw [show s' = sa from (congrArg Prod.fst he).symm]
        exact handleTaskRefinement_noNewDone env msg s sa pa (some rep1) hr
      | none =>
        have he := Except.ok.inj h
        rw [show s' = (dispatchRest env msg sa).1 from (congrArg Prod.fst he).symm]
        exact noNewDone_trans
          (handleTaskRefinement_noNewDone env msg s sa pa none hr)
          (dispatchRest_noNewDone env msg sa)
  · have he := Except.ok.inj h
    rw [show s' = (dispatchRest env msg s).1 from (congrArg Prod.fst he).symm]
    exact dispatchRest_noNewDone env msg s

/-- C8: a task only ever carries status `"completed"` or `"failed"`
after a processed turn if it already carried exactly that status
before: no user-input dispatch path assigns either status, and the
system (announce) handler leaves the session's task map untouched, so
the executing-to-terminal transition can only be made by the
announce-side machinery outside the loop. -/
theorem done_status_only_via_announce :
    (∀ (M : Type) (env : Env M) (msg : InboundMessage) (s s' : Session)
      (pubs : List InboundMessage) (rep : Option OutboundMessage),
      processNonSystem env msg s = .ok (s', pubs, rep) → noNewDone s.tasks s'.tasks) ∧
    (∀ (M : Type) (env : Env M) (store : String → Session) (msg : InboundMessage),
      ((processSystemMessage env store msg).2.1).tasks =
        (store (processSystemMessage env store msg).1).tasks) :=
  ⟨fun _ env msg s s' pubs rep h => processNonSystem_noNewDone env msg s s' pubs rep h,
   fun _ _ _ _ => rfl⟩

/-- C8 witness: a concrete normal turn preserves the relation, and a
concrete announce turn leaves the task map untouched. -/
theorem done_status_only_via_announce_witness :
    noNewDone sessEmpty.tasks (normalTurn envPlain msgW sessEmpty).1.tasks ∧
    ((processSystemMessage envPlain (fun _ => sessEmpty) msgSysW).2.1).tasks =
      ((fun (_ : String) => sessEmpty) (processSystemMessage envPlain
        (fun _ => sessEmpty) msgSysW).1).tasks :=
  ⟨done_status_only_via_announce.1 Unit envPlain msgW sessEmpty
      (normalTurn envPlain msgW sessEmpty).1 (normalTurn envPlain msgW sessEmpty).2.1
      (normalTurn envPlain msgW sessEmpty).2.2 rfl,
   done_status_only_via_announce.2 Unit envPlain (fun _ => sessEmpty) msgSysW⟩

/-! Lemmas for the active-task invariant. -/

theorem sessionInv_of_none {s' : Session} (h : s'.active_task_id = none) : SessionInv s' := by
  intro tid ht
  rw [h] at ht
  exact absurd ht (by simp)

theorem exists_ok_modify (tm : TaskManager) (id tid : String) (f : Task → Task)
    (hf : ∀ t, okStatus t.status → okStatus (f t).status)
    (h : ∃ t, tm.get_task tid = some t ∧ okStatus t.status) :
    ∃ t, (tm.modify id f).get_task tid = some t ∧ okStatus t.status := by
  obtain ⟨t, hl, hok⟩ := h
  by_cases he : tid = id
  · subst he
    rw [get_task_modify_self, hl]
    exact ⟨f t, rfl, hf t hok⟩
  · rw [get_task_modify_other _ _ _ _ he]
    exact ⟨t, hl, hok⟩

theorem addref_f_ok (user : String) (bot act : Option String) (now : Nat) :
    ∀ t : Task, okStatus t.status →
      okStatus (Task.add_refinement
        (if t.status = "drafting" then { t with status := "refining" } else t)
        user bot act now).status := by
  intro t hok
  simp only [add_refinement_status]
  by_cases h : t.status = "drafting"
  · rw [if_pos h]
    exact Or.inr (Or.inl rfl)
  · rw [if_neg h]
    exact hok

theorem create_task_lookup (tm : TaskManager) (title desc : String) (ps : Json)
    (copt : Option String) (now : Nat) :
    (tm.create_task title desc ps copt now).2.get_task
      (tm.create_task title desc ps copt now).1.id =
      some (tm.create_task title desc ps copt now).1 := by
  show lookupA (setAssoc _ _ _) _ = _
  exact lookupA_setAssoc_self _ _ _

theorem sessionInv_tasks_update (s : Session) (tm' : TaskManager)
    (hpres : ∀ tid, (∃ t, s.tasks.get_task tid = some t ∧ okStatus t.status) →
      (∃ t, tm'.get_task tid = some t ∧ okStatus t.status))
    (hinv : SessionInv s) :
    SessionInv { s with tasks := tm' } := by
  intro tid ht
  exact hpres tid (hinv tid ht)

theorem sessionInv_delete_other (s : Session) (arg : String)
    (hna : ¬ s.active_task_id = some arg) (hinv : SessionInv s) :
    SessionInv { s with tasks := s.tasks.delete_task arg } := by
  intro tid ht
  have ht' : s.active_task_id = some tid := ht
  have hne : tid ≠ arg := fun hh => hna (hh ▸ ht')
  obtain ⟨t, hl, hok⟩ := hinv tid ht'
  refine ⟨t, ?_, hok⟩
  show lookupA (delAssoc s.tasks.tasks arg) tid = some t
  rw [lookupA_delAssoc_other arg tid hne]
  exact hl

theorem handleTaskCommand_inv (msg : InboundMessage) (s : Session) (t0 : Option Task)
    (c : Option String) (hinv : SessionInv s) :
    SessionInv (handleTaskCommand msg s t0 c).1 := by
  simp only [handleTaskCommand]
  split_ifs <;>
    first
      | (split <;> exact hinv)
      | exact hinv
      | exact sessionInv_of_none rfl
      | (rename_i hna
         exact sessionInv_delete_other s _ hna hinv)

theorem legacyTaskApproval_inv {M : Type} (env : Env M) (msg : InboundMessage)
    (s : Session) (hinv : SessionInv s) :
    SessionInv (legacyTaskApproval env msg s).1 := by
  simp only [legacyTaskApproval]
  split_ifs <;> exact fun tid ht => hinv tid ht

theorem processRefinement_inv {M : Type} (env : Env M) (msg : InboundMessage)
    (s : Session) (task : Task) (hinv : SessionInv s) :
    SessionInv (processRefinement env msg s task).1 := by
  cases hcl : env.classifyRefinement msg.content task with
  | error e =>
    simp only [processRefinement, hcl]
    refine sessionInv_tasks_update s _ ?_ hinv
    intro tid hb
    exact exists_ok_modify _ _ _ _ (addref_f_ok _ _ _ _) hb
  | ok r =>
    by_cases hap : r.is_approval = true
    · simp only [processRefinement, hcl, if_pos hap]
      exact sessionInv_of_none rfl
    · simp only [processRefinement, hcl, if_neg hap]
      refine sessionInv_tasks_update s _ ?_ hinv
      intro tid hb
      have base := exists_ok_modify _ task.id tid _ (addref_f_ok msg.content
        (some r.response) none env.now) hb
      have step2 : ∃ t,
          ((if !r.new_requirements.isEmpty then
            (s.tasks.add_refinement task.id msg.content (some r.response) none env.now).modify
              task.id (fun t => t.update_requirements r.new_requirements env.now)
          else s.tasks.add_refinement task.id msg.content
            (some r.response) none env.now)).get_task tid = some t ∧ okStatus t.status := by
        by_cases hc : (!r.new_requirements.isEmpty) = true
        · rw [if_pos hc]
          exact exists_ok_modify _ _ _ _ (fun t hk => hk) base
        · rw [if_neg hc]
          exact base
      by_cases hc2 : r.updates ≠ ""
      · rw [if_pos hc2]
        exact exists_ok_modify _ _ _ _ (fun t hk => hk) step2
      · rw [if_neg hc2]
        exact step2

theorem handleTaskRefinement_inv {M : Type} (env : Env M) (msg : InboundMessage)
    (s s1 : Session) (pubs : List InboundMessage) (orep : Option OutboundMessage)
    (h : handleTaskRefinement env msg s = .ok (s1, pubs, orep)) (hinv : SessionInv s) :
    SessionInv s1 := by
  simp only [handleTaskRefinement] at h
  cases hot : (if optTruthy s.active_task_id then
      s.tasks.get_task (s.active_task_id.getD "") else none) with
  | none =>
    simp only [hot] at h
    have he := Except.ok.inj h
    rw [show s1 = ({ s with active_task_id := none } : Session) from (congrArg Prod.fst he).symm]
    exact sessionInv_of_none rfl
  | some task =>
    simp only [hot] at h
    split_ifs at h with ha hr
    · have he := Except.ok.inj h
      rw [show s1 = (approvalTransition env msg s task).1 from (congrArg Prod.fst he).symm]
      exact sessionInv_of_none rfl
    · have he := Except.ok.inj h
      rw [show s1 = ({ s with active_task_id := none, tasks := s.tasks.set_task_status task.id "cancelled" env.now } : Session) from (congrArg Prod.fst he).symm]
      exact sessionInv_of_none rfl
    · have he := Except.ok.inj h
      rw [show s1 = (processRefinement env msg s task).1 from (congrArg Prod.fst he).symm]
      exact processRefinement_inv env msg s task hinv

theorem taskRefTarget_some (s : Session) (cs : String) (t : Task) (rtid refc : String)
    (h : taskRefTarget s cs = some (t, rtid, refc)) :
    s.tasks.get_task rtid = some t := by
  simp only [taskRefTarget] at h
  cases hm : taskRefMatch cs with
  | none =>
    simp only [hm] at h
    exact Option.noConfusion h
  | some pr =>
    obtain ⟨tidRaw, rc⟩ := pr
    simp only [hm] at h
    cases hg : s.tasks.get_task (pyLower tidRaw) with
    | none =>
      simp only [hg] at h
      exact Option.noConfusion h
    | some t1 =>
      simp only [hg, Option.some.injEq, Prod.mk.injEq] at h
      obtain ⟨h1, h2, h3⟩ := h
      subst h1
      subst h2
      exact hg

theorem refByIdBranch_inv {M : Type} (env : Env M) (msg : InboundMessage) (s : Session)
    (rtid refc : String) (t0 : Task) (h0 : s.tasks.get_task rtid = some t0) :
    SessionInv (refByIdBranch env msg s rtid refc).1 := by
  intro tid ht
  have ht' : (some rtid : Option String) = some tid := ht
  have heq : rtid = tid := Option.some.inj ht'
  subst heq
  show ∃ t, (s.tasks.modify rtid _).get_task rtid = some t ∧ okStatus t.status
  rw [get_task_modify_self, h0, Option.map_some']
  exact ⟨_, rfl, Or.inr (Or.inl rfl)⟩

theorem createTaskBranch_inv {M : Type} (env : Env M) (msg : InboundMessage) (s : Session)
    (d : DevAnalysis) : SessionInv (createTaskBranch env msg s d).1 := by
  intro tid ht
  have ht' : (some (s.tasks.create_task (extractTaskTitle msg.content) msg.content
      (devTaskJson msg.content d) none env.now).1.id : Option String) = some tid := ht
  have heq := Option.some.inj ht'
  subst heq
  have base : ∃ t, (s.tasks.create_task (extractTaskTitle msg.content) msg.content
      (devTaskJson msg.content d) none env.now).2.get_task
      (s.tasks.create_task (extractTaskTitle msg.content) msg.content
        (devTaskJson msg.content d) none env.now).1.id = some t ∧ okStatus t.status :=
    ⟨_, create_task_lookup _ _ _ _ _ _, Or.inl rfl⟩
  have step2 : ∃ t,
      ((if !d.requirements.isEmpty then
        (s.tasks.create_task (extractTaskTitle msg.content) msg.content
          (devTaskJson msg.content d) none env.now).2.modify
          (s.tasks.create_task (extractTaskTitle msg.content) msg.content
            (devTaskJson msg.content d) none env.now).1.id
          (fun t => t.update_requirements d.requirements env.now)
      else (s.tasks.create_task (extractTaskTitle msg.content) msg.content
        (devTaskJson msg.content d) none env.now).2)).get_task
        (s.tasks.create_task (extractTaskTitle msg.content) msg.content
          (devTaskJson msg.content d) none env.now).1.id = some t ∧ okStatus t.status := by
    by_cases hc : (!d.requirements.isEmpty) = true
    · rw [if_pos hc]
      exact exists_ok_modify _ _ _ _ (fun t hk => hk) base
    · rw [if_neg hc]
      exact base
  exact exists_ok_modify _ _ _ _ (fun t _ => Or.inr (Or.inl rfl)) step2

theorem dispatchRest_inv {M : Type} (env : Env M) (msg : InboundMessage) (s : Session)
    (hinv : SessionInv s) : SessionInv (dispatchRest env msg s).1 := by
  simp only [dispatchRest]
  split_ifs <;>
    first
      | exact legacyTaskApproval_inv env msg s hinv
      | (cases htr : taskRefTarget s (pyStrip msg.content) with
         | some triple =>
            obtain ⟨t0, rtid, refc⟩ := triple
            exact refByIdBranch_inv env msg s rtid refc t0
              (taskRefTarget_some s _ t0 rtid refc htr)
         | none =>
            cases (tasksByCreation s.tasks).find?
                (matchesContent (pyLower (pyStrip msg.content))) with
            | some t =>
              first
                | exact fun tid ht => hinv tid ht
                | (cases env.analyzeDev msg.content with
                   | some d =>
                      first
                        | exact createTaskBranch_inv env msg s d
                        | exact fun tid ht => hinv tid ht
                   | none => exact fun tid ht => hinv tid ht)
            | none =>
              cases env.analyzeDev msg.content with
              | some d =>
                first
                  | exact createTaskBranch_inv env msg s d
                  | exact fun tid ht => hinv tid ht
              | none => exact fun tid ht => hinv tid ht)

theorem processNonSystem_inv {M : Type} (env : Env M) (msg : InboundMessage)
    (s s' : Session) (pubs : List InboundMessage) (rep : Option OutboundMessage)
    (h : processNonSystem env msg s = .ok (s', pubs, rep)) (hinv : SessionInv s) :
    SessionInv s' := by
  simp only [processNonSystem] at h
  split_ifs at h with h1 h2
  · have he := Except.ok.inj h
    rw [show s' = (handleTaskCommand msg s none none).1 from (congrArg Prod.fst he).symm]
    exact handleTaskCommand_inv msg s none none hinv
  · cases hr : handleTaskRefinement env msg s with
    | error e =>
      rw [hr] at h
      exact absurd h (by simp)
    | ok trip =>
      obtain ⟨sa, pa, ra⟩ := trip
      rw [hr] at h
      cases ra with
      | some rep1 =>
        have he := Except.ok.inj h
        rw [show s' = sa from (congrArg Prod.fst he).symm]
        exact handleTaskRefinement_inv env msg s sa pa (some rep1) hr hinv
      | none =>
        have he := Except.ok.inj h
        rw [show s' = (dispatchRest env msg sa).1 from (congrArg Prod.fst he).symm]
        exact dispatchRest_inv env msg sa
          (handleTaskRefinement_inv env msg s sa pa none hr hinv)
  · have he := Except.ok.inj h
    rw [show s' = (dispatchRest env msg s).1 from (congrArg Prod.fst he).symm]
    exact dispatchRest_inv env msg s hinv

/-- C7: message processing preserves the invariant that the session's
single `active_task_id` slot, when set, names a task of its manager in
status drafting, refining, approved, or executing; and both the
approval transition and the cancellation transition clear
`active_task_id` to `None`. -/
theorem session_active_task_invariant :
    (∀ (M : Type) (env : Env M) (msg : InboundMessage) (s s' : Session)
      (pubs : List InboundMessage) (rep : Option OutboundMessage),
      processNonSystem env msg s = .ok (s', pubs, rep) → SessionInv s → SessionInv s') ∧
    (∀ (M : Type) (env : Env M) (msg : InboundMessage) (s : Session) (tid : String)
      (task : Task), msg.channel ≠ "cli" → s.active_task_id = some tid → tid ≠ "" →
      s.tasks.get_task tid = some task →
      pyLower (pyStrip msg.content) ∈ approvalWords →
      ∃ s' pubs rep, processNonSystem env msg s = .ok (s', pubs, rep) ∧
        s'.active_task_id = none) ∧
    (∀ (M : Type) (env : Env M) (msg : InboundMessage) (s : Session) (tid : String)
      (task : Task), msg.channel ≠ "cli" → s.active_task_id = some tid → tid ≠ "" →
      s.tasks.get_task tid = some task →
      pyLower (pyStrip msg.content) ∈ rejectionWords →
      ∃ s' pubs rep, processNonSystem env msg s = .ok (s', pubs, rep) ∧
        s'.active_task_id = none) := by
  refine ⟨fun _ env msg s s' pubs rep h hinv =>
    processNonSystem_inv env msg s s' pubs rep h hinv, ?_, ?_⟩
  · intro _ env msg s tid task h1 h2 h3 h4 h5
    exact ⟨_, _, _, processNonSystem_approval_core env msg s tid task h1 h2 h3 h4 h5, rfl⟩
  · intro _ env msg s tid task h1 h2 h3 h4 h5
    exact ⟨_, _, _, processNonSystem_cancel_core env msg s tid task h1 h2 h3 h4 h5, rfl⟩

/-- C7 witness: the invariant holds after a concrete normal turn, and
both a concrete approval (`"yes"`) and a concrete cancellation
(`"no"`) clear the active pointer. -/
theorem session_active_task_invariant_witness :
    SessionInv (normalTurn envPlain msgW sessEmpty).1 ∧
    (∃ s' pubs rep, processNonSystem envPlain msgYes sessActive = .ok (s', pubs, rep) ∧
      s'.active_task_id = none) ∧
    (∃ s' pubs rep, processNonSystem envPlain msgNo sessActive = .ok (s', pubs, rep) ∧
      s'.active_task_id = none) :=
  ⟨session_active_task_invariant.1 Unit envPlain msgW sessEmpty
      (normalTurn envPlain msgW sessEmpty).1 (normalTurn envPlain msgW sessEmpty).2.1
      (normalTurn envPlain msgW sessEmpty).2.2 rfl
      (fun _ ht => Option.noConfusion ht),
   session_active_task_invariant.2.1 Unit envPlain msgYes sessActive "app-1" taskApp1
      (by decide) rfl (by decide) rfl (by decide),
   session_active_task_invariant.2.2 Unit envPlain msgNo sessActive "app-1" taskApp1
      (by decide) rfl (by decide) rfl (by decide)⟩

theorem find_isSome_of_mem (p : Task → Bool) :
    ∀ l : List Task, ∀ t ∈ l, p t = true → (l.find? p).isSome = true := by
  intro l
  induction l with
  | nil => intro t ht; exact absurd ht (by simp)
  | cons x xs ih =>
    intro t ht hp
    by_cases hx : p x = true
    · rw [List.find?_cons_of_pos _ hx]; rfl
    · rw [List.find?_cons_of_neg _ hx]
      rcases List.mem_cons.mp ht with h1 | h1
      · cases h1; exact absurd hp hx
      · exact ih t h1 hp

theorem find_min_pairwise (key : Task → Nat) (p : Task → Bool) :
    ∀ l : List Task, List.Pairwise (fun a b => key a ≤ key b) l →
      ∀ a, l.find? p = some a → ∀ b ∈ l, p b = true → key a ≤ key b := by
  intro l
  induction l with
  | nil => intro _ a ha; exact absurd ha (by simp)
  | cons x xs ih =>
    intro hp a ha b hb hpb
    rw [List.pairwise_cons] at hp
    by_cases hx : p x = true
    · rw [List.find?_cons_of_pos _ hx] at ha
      cases ha
      rcases List.mem_cons.mp hb with hbx | hbxs
      · cases hbx; exact Nat.le_refl _
      · exact hp.1 b hbxs
    · rw [List.find?_cons_of_neg _ hx] at ha
      rcases List.mem_cons.mp hb with hbx | hbxs
      · cases hbx; exact absurd hpb hx
      · exact ih hp.2 a ha b hbxs hpb

theorem pairwise_tasksByCreation (tm : TaskManager) :
    List.Pairwise (fun a b : Task => a.created_at ≤ b.created_at) (tasksByCreation tm) := by
  haveI : IsTotal Task (fun a b => a.created_at ≤ b.created_at) :=
    ⟨fun a b => Nat.le_total a.created_at b.created_at⟩
  haveI : IsTrans Task (fun a b => a.created_at ≤ b.created_at) :=
    ⟨fun _ _ _ => Nat.le_trans⟩
  exact List.sorted_insertionSort _ _

/-- C9 counterexample: a message stripping to the empty string is a
case-insensitive exact match of an existing task with empty
description, the message satisfies every condition of the claim for
reaching the matching step (non-CLI channel, no task command by
prefix, no active task, no pending task, no task-id reference), yet
dispatch creates a new task (the manager grows from one task to two)
because the matching loop skips Python-falsy empty titles and
descriptions. -/
theorem duplicate_redisplay_cex :
    pyLower taskEmptyDesc.description = pyLower (pyStrip msgBlank.content) ∧
    msgBlank.channel ≠ "cli" ∧
    sessMatchCex.active_task_id = none ∧
    sessMatchCex.pending_task = none ∧
    taskRefMatch (pyStrip msgBlank.content) = none ∧
    (∃ res, processNonSystem envDev msgBlank sessMatchCex = .ok res ∧
      res.1.tasks.tasks.length = 2) ∧
    sessMatchCex.tasks.tasks.length = 1 := by
  refine ⟨rfl, by decide, rfl, rfl, rfl, ⟨_, rfl, ?_⟩, rfl⟩
  rfl

/-- C9 (amended): for a non-CLI message with no `/task` prefix, no
active task, no pending task, and no task-id reference, if some task
in the session has a NON-EMPTY title or description that equals the
stripped lower-cased content case-insensitively, then the duplicate
scan finds a matching task, dispatch leaves the session (hence its
task set) unchanged, and the reply re-displays the found task, whose
creation time is minimal among all matching tasks. -/
theorem duplicate_redisplay_amended {M : Type} (env : Env M) (msg : InboundMessage)
    (s : Session)
    (h_cli : msg.channel ≠ "cli")
    (h_cmd : pyStartsWith (pyLower (pyStrip msg.content)) "/task" = false)
    (h_act : optTruthy s.active_task_id = false)
    (h_pend : jsonOptTruthy s.pending_task = false)
    (h_ref : taskRefTarget s (pyStrip msg.content) = none)
    (h_ex : ∃ t ∈ s.tasks.tasks.map Prod.snd,
      matchesContent (pyLower (pyStrip msg.content)) t = true) :
    ∃ tmatch,
      (tasksByCreation s.tasks).find?
        (matchesContent (pyLower (pyStrip msg.content))) = some tmatch ∧
      matchesContent (pyLower (pyStrip msg.content)) tmatch = true ∧
      (∀ t' ∈ s.tasks.tasks.map Prod.snd,
        matchesContent (pyLower (pyStrip msg.content)) t' = true →
        tmatch.created_at ≤ t'.created_at) ∧
      processNonSystem env msg s =
        .ok (s, [], some (redisplayReply msg tmatch)) := by
  obtain ⟨t0, hmem, hp0⟩ := h_ex
  have hperm : List.Perm (tasksByCreation s.tasks) (s.tasks.tasks.map Prod.snd) :=
    List.perm_insertionSort _ _
  have hsome : ((tasksByCreation s.tasks).find?
      (matchesContent (pyLower (pyStrip msg.content)))).isSome = true :=
    find_isSome_of_mem _ _ t0 (hperm.mem_iff.mpr hmem) hp0
  cases hfind : (tasksByCreation s.tasks).find?
      (matchesContent (pyLower (pyStrip msg.content))) with
  | none => rw [hfind] at hsome; exact absurd hsome (by simp)
  | some tmatch =>
    have hptm : matchesContent (pyLower (pyStrip msg.content)) tmatch = true :=
      List.find?_some hfind
    have hmin := find_min_pairwise (fun t => t.created_at)
      (matchesContent (pyLower (pyStrip msg.content))) (tasksByCreation s.tasks)
      (pairwise_tasksByCreation s.tasks) tmatch hfind
    refine ⟨tmatch, rfl, hptm, ?_, ?_⟩
    · intro t' hmem' hp'
      exact hmin t' (hperm.mem_iff.mpr hmem') hp'
    · have hocc1 : ¬ (pyStartsWith (pyLower (pyStrip msg.content)) "/task" = true ∧
        msg.channel ≠ "cli") := by simp [h_cmd]
      have hocc2 : ¬ (optTruthy s.active_task_id = true ∧ msg.channel ≠ "cli") := by
        simp [h_act]
      have hocc3 : ¬ (jsonOptTruthy s.pending_task = true ∧
        ¬ optTruthy s.active_task_id = true) := by simp [h_pend]
      simp only [processNonSystem, dispatchRest]
      rw [if_neg hocc1, if_neg hocc2, if_neg hocc3]
      simp only [h_ref, hfind, if_pos h_cli]

/-- C9 witness: the message `"Build A Web Site"` on a non-CLI channel
matches the stored task `taskApp1` (description
`"build a web site"`) case-insensitively, and dispatch re-displays it
without touching the session. -/
theorem duplicate_redisplay_amended_witness :
    ∃ tmatch,
      (tasksByCreation sessMatch.tasks).find?
        (matchesContent (pyLower (pyStrip msgDup.content))) = some tmatch ∧
      matchesContent (pyLower (pyStrip msgDup.content)) tmatch = true ∧
      (∀ t' ∈ sessMatch.tasks.tasks.map Prod.snd,
        matchesContent (pyLower (pyStrip msgDup.content)) t' = true →
        tmatch.created_at ≤ t'.created_at) ∧
      processNonSystem envPlain msgDup sessMatch =
        .ok (sessMatch, [], some (redisplayReply msgDup tmatch)) :=
  duplicate_redisplay_amended envPlain msgDup sessMatch (by decide) (by decide) rfl rfl rfl
    ⟨taskApp1, List.mem_cons_self _ _, by decide⟩

end Nanobot
